import Mathlib

/-!
# postgres-operator: namespace scoping, cluster status and deployment primitives

A shallow embedding of

* `controller/namespace/namespacecontroller.go` (the namespace event handlers and `Run`),
* `apis/cr/v1/cluster.go` (cluster states, anti-affinity validation, TLS flag),
* `kubeapi/deployment.go` (the deployment mutation primitives),

followed by the properties proved about them.  The entries of a Go map are an association
list read by first match, a nil map or nil pointer is `none`, and the map-typed fields of a
deployment hold the address of a map, so that two fields can be one and the same map.  Go
errors are `Option GoError` (`none` is `nil`), a panic is an outcome of its own, and every
call into the Kubernetes client is a parameter of the function that makes it.
-/

set_option autoImplicit false

namespace PostgresOperator

/-! ## Go runtime: maps, errors, panics, logging -/

/-- Finite map as an association list; the first binding of a key is the one that is read. -/
abbrev Assoc (κ ν : Type) := List (κ × ν)

/-- Read the binding of `k`, if any. -/
def Assoc.get {κ ν : Type} [DecidableEq κ] : Assoc κ ν → κ → Option ν
  | [], _ => none
  | (k0, v0) :: m, k => if k0 = k then some v0 else Assoc.get m k

/-- Bind `k` to `v`: overwrite the first binding of `k`, or add one at the end. -/
def Assoc.set {κ ν : Type} [DecidableEq κ] : Assoc κ ν → κ → ν → Assoc κ ν
  | [], k, v => [(k, v)]
  | (k0, v0) :: m, k, v => if k0 = k then (k, v) :: m else (k0, v0) :: Assoc.set m k v

/-- Remove every binding of `k`. -/
def Assoc.del {κ ν : Type} [DecidableEq κ] : Assoc κ ν → κ → Assoc κ ν
  | [], _ => []
  | (k0, v0) :: m, k => if k0 = k then Assoc.del m k else (k0, v0) :: Assoc.del m k

/-- The keys bound in the map, in order. -/
def Assoc.keys {κ ν : Type} (m : Assoc κ ν) : List κ := m.map Prod.fst

/-- A Go `map[string]string` that is not nil. -/
abbrev GoMap := Assoc String String

/-- Go `m[k]` on a possibly nil map: the zero value `""` when the map is nil or the key is
absent. -/
def index (m : Option GoMap) (k : String) : String :=
  match m with
  | none => ""
  | some entries => (Assoc.get entries k).getD ""

/-- Lookup in a possibly nil map: `none` when the map is nil or has no entry for `k`. -/
def lookup (m : Option GoMap) (k : String) : Option String :=
  m.bind (fun entries => Assoc.get entries k)

/-- The map has an entry for `k` and its value is `v`. -/
def carries (m : Option GoMap) (k v : String) : Prop :=
  lookup m k = some v

instance (m : Option GoMap) (k v : String) : Decidable (carries m k v) := by
  unfold carries; infer_instance

/-- The run-time panics the embedded code can raise. -/
inductive GoPanic where
  | nilPointerDereference
  | assignmentToNilMap
  | interfaceConversion
  deriving DecidableEq, Repr

/-- Go `p.field` through a pointer: panics when the pointer is nil. -/
def deref {α : Type} (p : Option α) : Except GoPanic α :=
  match p with
  | none => .error .nilPointerDereference
  | some a => .ok a

/-- A non-nil Go `error`.  `notFound` is what `kerrors.IsNotFound` reads (the status reason
of an API error). -/
structure GoError where
  msg : String
  notFound : Bool
  deriving DecidableEq, Repr

/-- Library `kerrors.IsNotFound`: false on the nil error. -/
def IsNotFound (err : Option GoError) : Bool :=
  match err with
  | none => false
  | some e => e.notFound

/-- Go `err.Error()`. -/
def GoError.Error (e : GoError) : String := e.msg

inductive LogLevel where
  | debug
  | info
  | error
  deriving DecidableEq, Repr

/-- One logrus call: level, format (or message) and the arguments in order. -/
structure LogEntry where
  level : LogLevel
  format : String
  args : List String
  deriving DecidableEq, Repr

/-! ## `controller/namespace/namespacecontroller.go` -/

/-- The label constants of package `config` and the variable `operator.InstallationName`;
their declarations are outside the embedded files, so they are parameters. -/
structure Config where
  LABEL_VENDOR : String
  LABEL_CRUNCHY : String
  LABEL_PGO_INSTALLATION_NAME : String
  InstallationName : String
  deriving DecidableEq, Repr

/-- The fields of `v1.Namespace` the handlers read. -/
structure Namespace where
  Name : String
  SelfLink : String
  Labels : Option GoMap
  deriving DecidableEq, Repr

/-- The six controllers held by `Controller`, in field order. -/
inductive Kind where
  | Pod
  | Job
  | Pgpolicy
  | Pgreplica
  | Pgcluster
  | Pgtask
  deriving DecidableEq, Repr

/-- All tracked kinds. -/
def Kind.all : List Kind :=
  [.Pod, .Job, .Pgpolicy, .Pgreplica, .Pgcluster, .Pgtask]

/-- The state of the six tracked controllers together with the log, threaded through the
handlers. -/
structure Handled (σ : Type) where
  controllers : σ
  logs : List LogEntry

/-- Body of `Controller.onAdd`; `SetupWatch k n` is `SetupWatch(n)` on the controller of kind
`k`. -/
def onAdd {σ : Type} (cfg : Config) (SetupWatch : Kind → String → σ → σ)
    (newNs : Namespace) (c : σ) : Handled σ :=
  let log0 : LogEntry := ⟨.debug, "[namespace Controller] OnAdd ns=%s", [newNs.SelfLink]⟩
  let labels := newNs.Labels
  if index labels cfg.LABEL_VENDOR ≠ cfg.LABEL_CRUNCHY
      ∨ index labels cfg.LABEL_PGO_INSTALLATION_NAME ≠ cfg.InstallationName then
    ⟨c, [log0, ⟨.debug, "namespace Controller: onAdd skipping namespace that is not crunchydata or not belonging to this Operator installation %s", [newNs.SelfLink]⟩]⟩
  else
    let c := SetupWatch .Pod newNs.Name c
    let c := SetupWatch .Job newNs.Name c
    let c := SetupWatch .Pgpolicy newNs.Name c
    let c := SetupWatch .Pgreplica newNs.Name c
    let c := SetupWatch .Pgcluster newNs.Name c
    let c := SetupWatch .Pgtask newNs.Name c
    ⟨c, [log0, ⟨.debug, "namespace Controller: onAdd crunchy namespace %s created", [newNs.SelfLink]⟩]⟩

/-- Body of `Controller.onUpdate`, the `UpdateFunc` of the namespace informer (its comment
speaks of a pgcluster); the old object is not read. -/
def onUpdate {σ : Type} (cfg : Config) (SetupWatch : Kind → String → σ → σ)
    (_oldNs newNs : Namespace) (c : σ) : Handled σ :=
  let log0 : LogEntry := ⟨.debug, "[namespace Controller] onUpdate ns=%s", [newNs.SelfLink]⟩
  let labels := newNs.Labels
  if index labels cfg.LABEL_VENDOR ≠ cfg.LABEL_CRUNCHY
      ∨ index labels cfg.LABEL_PGO_INSTALLATION_NAME ≠ cfg.InstallationName then
    ⟨c, [log0, ⟨.debug, "namespace Controller: onUpdate skipping namespace that is not crunchydata %s", [newNs.SelfLink]⟩]⟩
  else
    let c := SetupWatch .Pod newNs.Name c
    let c := SetupWatch .Job newNs.Name c
    let c := SetupWatch .Pgpolicy newNs.Name c
    let c := SetupWatch .Pgreplica newNs.Name c
    let c := SetupWatch .Pgcluster newNs.Name c
    let c := SetupWatch .Pgtask newNs.Name c
    ⟨c, [log0, ⟨.debug, "namespace Controller: onUpdate crunchy namespace updated %s", [newNs.SelfLink]⟩]⟩

/-- What the informer hands to `DeleteFunc` as `obj interface{}`: the deleted namespace, or,
when the watch missed the delete, the tombstone `cache.DeletedFinalStateUnknown` with the
key and the last known state of the object. -/
inductive DeletedObject where
  | object (ns : Namespace)
  | finalStateUnknown (key : String) (obj : Namespace)
  deriving DecidableEq, Repr

/-- How a call of a handler ends: it returns, or it panics with the controllers in the
state they were in at that point. -/
inductive HandlerEnd (σ : Type) where
  | returned (h : Handled σ)
  | panicked (p : GoPanic) (controllers : σ) (logs : List LogEntry)

/-- The controllers' state a handler leaves, however it ends. -/
def HandlerEnd.controllers {σ : Type} : HandlerEnd σ → σ
  | .returned h => h.controllers
  | .panicked _ c _ => c

/-- Body of `Controller.onDelete`.  Line 143 is the unchecked assertion
`obj.(*v1.Namespace)`, which panics on a tombstone before anything is logged; after it both
branches only log. -/
def onDelete {σ : Type} (cfg : Config) (obj : DeletedObject) (c : σ) : HandlerEnd σ :=
  match obj with
  | .finalStateUnknown _ _ => .panicked .interfaceConversion c []
  | .object ns =>
    let log0 : LogEntry := ⟨.debug, "[namespace Controller] onDelete ns=%s", [ns.SelfLink]⟩
    let labels := ns.Labels
    if index labels cfg.LABEL_VENDOR ≠ cfg.LABEL_CRUNCHY then
      .returned ⟨c, [log0, ⟨.debug, "namespace Controller: onDelete skipping namespace that is not crunchydata %s", [ns.SelfLink]⟩]⟩
    else
      .returned ⟨c, [log0, ⟨.debug, "namespace Controller: onDelete crunchy operator namespace %s is deleted", [ns.SelfLink]⟩]⟩

/-- A notification of the namespace informer.  Add and update notifications carry
namespaces; a delete notification carries what `DeleteFunc` is handed. -/
inductive NamespaceEvent where
  | add (obj : Namespace)
  | update (oldObj newObj : Namespace)
  | delete (obj : DeletedObject)
  deriving DecidableEq, Repr

/-- The handler table registered in `watchNamespaces`
(`AddFunc: c.onAdd, UpdateFunc: c.onUpdate, DeleteFunc: c.onDelete`). -/
def dispatch {σ : Type} (cfg : Config) (SetupWatch : Kind → String → σ → σ)
    (e : NamespaceEvent) (c : σ) : HandlerEnd σ :=
  match e with
  | .add obj => .returned (onAdd cfg SetupWatch obj c)
  | .update oldObj newObj => .returned (onUpdate cfg SetupWatch oldObj newObj c)
  | .delete obj => onDelete cfg obj c

/-- Deliver a sequence of notifications in order, keeping the controllers' state; a handler
that panics ends the delivery. -/
def deliver {σ : Type} (cfg : Config) (SetupWatch : Kind → String → σ → σ) :
    List NamespaceEvent → σ → σ
  | [], c => c
  | e :: es, c =>
    match dispatch cfg SetupWatch e c with
    | .returned h => deliver cfg SetupWatch es h.controllers
    | .panicked _ c2 _ => c2

/-- One `SetupWatch` call: the controller it is made on and its argument. -/
abbrev SetupWatchCall := Kind × String

/-- A controller set that only records the `SetupWatch` calls made on it. -/
def recordSetupWatch (k : Kind) (ns : String) (calls : List SetupWatchCall) :
    List SetupWatchCall :=
  calls ++ [(k, ns)]

/-- The calls `onAdd` makes. -/
def onAddCalls (cfg : Config) (newNs : Namespace) : List SetupWatchCall :=
  (onAdd cfg recordSetupWatch newNs []).controllers

/-- The calls `onUpdate` makes. -/
def onUpdateCalls (cfg : Config) (oldNs newNs : Namespace) : List SetupWatchCall :=
  (onUpdate cfg recordSetupWatch oldNs newNs []).controllers

/-- The tracked watches of the six controllers: the `(kind, namespace)` pairs with a live
watch. -/
abbrev WatchSet := List (Kind × String)

/-- Modelled from the spec: `SetupWatch` of the generic resource controllers (packages
`controller/pod`, `job`, `pgpolicy`, `pgreplica`, `pgcluster`, `pgtask`) is not among the
embedded files.  Spec 4.2: "idempotent — if a live watch already exists for that namespace,
return immediately without creating a duplicate"; otherwise a watch for the namespace is
started. -/
def SetupWatch (k : Kind) (ns : String) (w : WatchSet) : WatchSet :=
  if (k, ns) ∈ w then w else w ++ [(k, ns)]

/-- In scope as spec 3 words it: the namespace carries the vendor label with the
controller's vendor value and the installation-name label with the configured name. -/
def InScope (cfg : Config) (ns : Namespace) : Prop :=
  carries ns.Labels cfg.LABEL_VENDOR cfg.LABEL_CRUNCHY
    ∧ carries ns.Labels cfg.LABEL_PGO_INSTALLATION_NAME cfg.InstallationName

instance (cfg : Config) (ns : Namespace) : Decidable (InScope cfg ns) := by
  unfold InScope; infer_instance

/-- The cancellation context `c.Ctx`: the tick at which `Done()` is closed (`none` when it
never is) and the error `Err()` reports from then on. -/
structure Context where
  doneAt : Option Nat
  Err : GoError
  deriving DecidableEq, Repr

/-- What the informer meets once it runs: the outcome of its initial list of the
namespaces (`none` is success). -/
structure InformerEnv where
  initialList : Option GoError
  deriving DecidableEq, Repr

/-- A goroutine started with `go`; the caller does not wait for it. -/
inductive Goroutine where
  | informerRun (resource : String) (ns : String) (resyncPeriod : Nat)
  deriving DecidableEq, Repr

/-- What `watchNamespaces` hands back and leaves behind. -/
structure WatchStart where
  err : Option GoError
  started : List Goroutine
  logs : List LogEntry
  deriving DecidableEq, Repr

/-- Body of `Controller.watchNamespaces`: builds the list-watch source and the informer
(neither constructor returns an error), starts `controller.Run` as a goroutine and returns
nil.  The initial list is made inside that goroutine, so its outcome is not read here. -/
def watchNamespaces (_env : InformerEnv) (_ctx : Context) : WatchStart :=
  let ns := ""
  ⟨none, [.informerRun "namespaces" ns 0], [⟨.info, "starting namespace controller", []⟩]⟩

/-- How a call of `Run` ends: it returns at some tick with an error value, or it stays
blocked on `<-c.Ctx.Done()` for ever. -/
inductive RunResult where
  | returned (tick : Nat) (err : Option GoError) (logs : List LogEntry)
  | blocked (logs : List LogEntry)
  deriving DecidableEq, Repr

/-- Body of `Controller.Run`, entered at tick `0`. -/
def Run (env : InformerEnv) (ctx : Context) : RunResult :=
  let w := watchNamespaces env ctx
  match w.err with
  | some err =>
    .returned 0 (some err)
      (w.logs ++ [⟨.error, "Failed to register watch for namespace resource: %v", [err.Error]⟩])
  | none =>
    match ctx.doneAt with
    | some t => .returned t (some ctx.Err) w.logs
    | none => .blocked w.logs

/-! ## `apis/cr/v1/cluster.go` -/

/-- Go `type PgclusterState string`. -/
abbrev PgclusterState := String

def PgclusterStateCreated : PgclusterState := "pgcluster Created"
def PgclusterStateProcessed : PgclusterState := "pgcluster Processed"
def PgclusterStateInitialized : PgclusterState := "pgcluster Initialized"
def PgclusterStateRestore : PgclusterState := "pgcluster Restoring"
def PgclusterStateShutdown : PgclusterState := "pgcluster Shutdown"

/-- Go `PgclusterStatus`. -/
structure PgclusterStatus where
  State : PgclusterState
  Message : String
  deriving DecidableEq, Repr

/-- The declared state constants, in declaration order. -/
def PgclusterState.declared : List PgclusterState :=
  [PgclusterStateCreated, PgclusterStateProcessed, PgclusterStateInitialized,
   PgclusterStateRestore, PgclusterStateShutdown]

/-- The zero value of `PgclusterStatus`: what a status holds until something writes it
(both fields are tagged `omitempty`). -/
def PgclusterStatus.zero : PgclusterStatus := ⟨"", ""⟩

/-- Go `type PodAntiAffinityType string`. -/
abbrev PodAntiAffinityType := String

def PodAntiAffinityRequired : PodAntiAffinityType := "required"
def PodAntiAffinityPreffered : PodAntiAffinityType := "preferred"
def PodAntiAffinityDisabled : PodAntiAffinityType := "disabled"

/-- Body of `PodAntiAffinityType.Validate`: `none` is the nil error. -/
def PodAntiAffinityType.Validate (p : PodAntiAffinityType) : Option GoError :=
  if p = PodAntiAffinityRequired ∨ p = PodAntiAffinityPreffered
      ∨ p = PodAntiAffinityDisabled ∨ p = "" then
    none
  else
    some ⟨"Invalid pod anti-affinity type.  Valid values are '" ++ PodAntiAffinityRequired
      ++ "', '" ++ PodAntiAffinityPreffered ++ "' or '" ++ PodAntiAffinityDisabled ++ "'", false⟩

/-- Go `TLSSpec`. -/
structure TLSSpec where
  CASecret : String
  TLSSecret : String
  deriving DecidableEq, Repr

/-- Body of `TLSSpec.IsTLSEnabled`. -/
def TLSSpec.IsTLSEnabled (t : TLSSpec) : Bool :=
  t.TLSSecret != "" && t.CASecret != ""

/-! ## `kubeapi/deployment.go`: data -/

/-- The address of a Go map object.  A Go map value is a reference: a map-typed field holds
the address of a map (or nil), and two fields that hold the same address are one and the
same map, so a write through either is seen through both. -/
abbrev MapRef := Nat

/-- The fields of `meta_v1.ObjectMeta` that are modelled. -/
structure ObjectMeta where
  Name : String
  Namespace : String
  Labels : Option MapRef
  Annotations : Option MapRef
  deriving DecidableEq, Repr

/-- Go `meta_v1.LabelSelector`, match-labels only. -/
structure LabelSelector where
  MatchLabels : Option MapRef
  deriving DecidableEq, Repr

/-- Go `PodTemplateSpec`; the pod spec (containers, resource limits, volumes) is kept as one
uninterpreted serialized value. -/
structure PodTemplateSpec where
  ObjectMeta : ObjectMeta
  Spec : String
  deriving DecidableEq, Repr

/-- Go `apps/v1.DeploymentSpec`: `Replicas` is a `*int32`, `Selector` a `*LabelSelector`;
`Strategy` stands for the remaining fields, uninterpreted. -/
structure DeploymentSpec where
  Replicas : Option Int
  Selector : Option LabelSelector
  Template : PodTemplateSpec
  Strategy : String
  deriving DecidableEq, Repr

/-- Go `apps/v1.Deployment` in memory: the struct, and in `Maps` the entries of the Go maps
its fields point to, by address (an address without entries is an empty map). -/
structure Deployment where
  ObjectMeta : ObjectMeta
  Spec : DeploymentSpec
  Status : String
  Maps : Assoc MapRef GoMap
  deriving DecidableEq, Repr

/-- The entries of the map at address `a`. -/
def Deployment.entriesAt (d : Deployment) (a : MapRef) : GoMap :=
  (Assoc.get d.Maps a).getD []

/-- The map a map-typed field holds: nil, or the entries at its address. -/
def Deployment.read (d : Deployment) (m : Option MapRef) : Option GoMap :=
  m.map d.entriesAt

/-- The write `m[k] = v` on the map at address `a`. -/
def Deployment.assignAt (d : Deployment) (a : MapRef) (k v : String) : Deployment :=
  { d with Maps := Assoc.set d.Maps a (Assoc.set (d.entriesAt a) k v) }

/-- Go `m[k] = v` where `m` is a map-typed field of `d`: panics when `m` is the nil map,
and otherwise writes to the map `m` points to. -/
def mapAssign (d : Deployment) (m : Option MapRef) (k v : String) :
    Except GoPanic Deployment :=
  match m with
  | none => .error .assignmentToNilMap
  | some a => .ok (d.assignAt a k v)

/-- Go `deployment.Name` (promoted field of the embedded `ObjectMeta`). -/
def Deployment.Name (d : Deployment) : String := d.ObjectMeta.Name

/-- Go `deployment.Namespace`. -/
def Deployment.Namespace (d : Deployment) : String := d.ObjectMeta.Namespace

/-- Go conversion `int32(n)`: the low 32 bits, read as a signed number. -/
def int32 (n : Int) : Int := (n + 2 ^ 31) % 2 ^ 32 - 2 ^ 31

/-- A JSON value at a leaf of a serialized object. -/
inductive JLeaf where
  | str (s : String)
  | num (i : Int)
  | raw (s : String)
  deriving DecidableEq, Repr

/-- The object keys from the root of a JSON document down to a leaf. -/
abbrev Path := List String

/-- A serialized JSON object, as the values at its leaves. -/
abbrev Doc := Assoc Path JLeaf

/-- A JSON merge patch (RFC 7386): the value to write at each named leaf, `none` being
`null`, which removes the leaf. -/
abbrev MergePatch := Assoc Path (Option JLeaf)

/-- A string field tagged `omitempty`. -/
def strField (p : Path) (s : String) : Doc :=
  if s = "" then [] else [(p, .str s)]

/-- A `map[string]string` field tagged `omitempty`, under the object at `p`. -/
def mapField (p : Path) (m : Option GoMap) : Doc :=
  match m with
  | none => []
  | some entries => entries.map (fun e => (p ++ [e.1], JLeaf.str e.2))

/-- Serialized `ObjectMeta` under the object at `p`; `read` gives the map a field holds. -/
def metaFields (read : Option MapRef → Option GoMap) (p : Path) (m : ObjectMeta) : Doc :=
  strField (p ++ ["name"]) m.Name ++ strField (p ++ ["namespace"]) m.Namespace
    ++ mapField (p ++ ["labels"]) (read m.Labels)
    ++ mapField (p ++ ["annotations"]) (read m.Annotations)

/-- The serialized form of a deployment. -/
def Deployment.toDoc (d : Deployment) : Doc :=
  metaFields d.read ["metadata"] d.ObjectMeta
    ++ (match d.Spec.Replicas with
        | none => []
        | some r => [(["spec", "replicas"], JLeaf.num r)])
    ++ (match d.Spec.Selector with
        | none => []
        | some sel => mapField ["spec", "selector", "matchLabels"] (d.read sel.MatchLabels))
    ++ metaFields d.read ["spec", "template", "metadata"] d.Spec.Template.ObjectMeta
    ++ [(["spec", "template", "spec"], JLeaf.raw d.Spec.Template.Spec),
        (["spec", "strategy"], JLeaf.raw d.Spec.Strategy),
        (["status"], JLeaf.raw d.Status)]

/-- Library `json.Marshal` on a deployment; it has no failing case on this type. -/
def jsonMarshal (d : Deployment) : Except GoError Doc := .ok d.toDoc

/-- The difference `jsonpatch.CreateMergePatch` computes: every leaf of `b` whose value is
not the one in `a`, and `null` for every leaf of `a` that `b` lacks. -/
def mergeDiff (a b : Doc) : MergePatch :=
  (Assoc.keys b).filterMap
      (fun p => if Assoc.get a p = Assoc.get b p then none else some (p, Assoc.get b p))
    ++ (Assoc.keys a).filterMap
      (fun p => if Assoc.get b p = none then some (p, none) else none)

/-- Library `jsonpatch.CreateMergePatch` on two serialized objects; it fails on malformed
input only. -/
def CreateMergePatch (a b : Doc) : Except GoError MergePatch := .ok (mergeDiff a b)

/-- Go `IntThingSpec`. -/
structure IntThingSpec where
  Op : String
  Path : String
  Value : Int
  deriving DecidableEq, Repr

/-- Go `types.PatchType`, the three values used. -/
inductive PatchType where
  | JSONPatchType
  | MergePatchType
  | StrategicMergePatchType
  deriving DecidableEq, Repr

/-- The patch bytes handed to the client, by what they encode. -/
inductive PatchBody where
  | text (patch : String)
  | jsonPatch (things : List IntThingSpec)
  | mergePatch (patch : MergePatch)
  deriving DecidableEq, Repr

/-- Go `meta_v1.DeleteOptions`, propagation policy only. -/
structure DeleteOptions where
  PropagationPolicy : Option String
  deriving DecidableEq, Repr

def DeletePropagationForeground : String := "Foreground"

/-- Go `meta_v1.ListOptions`, label selector only. -/
structure ListOptions where
  LabelSelector : String
  deriving DecidableEq, Repr

/-! ## `kubeapi/deployment.go`: the client and the primitives

`clientset.AppsV1().Deployments(namespace)` is passed as the one method the primitive
calls, acting on a client state `σ`. -/

/-- The reply of a client call: the object it returns, the error, and the client state
after the call. -/
structure Reply (σ α : Type) where
  obj : α
  err : Option GoError
  state : σ

abbrev DeleteFn (σ : Type) := String → String → DeleteOptions → σ → Reply σ Unit
abbrev CreateFn (σ : Type) := String → Deployment → σ → Reply σ Deployment
abbrev GetFn (σ : Type) := String → String → σ → Reply σ Deployment
abbrev ListFn (σ : Type) := String → ListOptions → σ → Reply σ (List Deployment)
/-- `Patch` and `Update`: the object they return is discarded by every caller here. -/
abbrev PatchFn (σ : Type) := String → String → PatchType → PatchBody → σ → Reply σ Unit
abbrev UpdateFn (σ : Type) := String → Deployment → σ → Reply σ Unit

/-- What a primitive returns, the client state it leaves and what it logged. -/
structure Out (σ α : Type) where
  ret : α
  state : σ
  logs : List LogEntry

/-- Go `log.Error(err)`. -/
def logError (err : GoError) : LogEntry := ⟨.error, "%v", [err.Error]⟩

/-- Body of `DeleteDeployment`. -/
def DeleteDeployment {σ : Type} (Delete : DeleteFn σ) (name namespace_ : String) (s : σ) :
    Out σ (Option GoError) :=
  let delOptions : DeleteOptions := ⟨some DeletePropagationForeground⟩
  let r := Delete namespace_ name delOptions s
  let failed :=
    match r.err with
    | some err => [logError err, ⟨.error, "error deleting Deployment " ++ name, []⟩]
    | none => []
  ⟨r.err, r.state, failed ++ [⟨.info, "delete deployment " ++ name, []⟩]⟩

/-- Body of `CreateDeployment`. -/
def CreateDeployment {σ : Type} (Create : CreateFn σ) (deployment : Deployment)
    (namespace_ : String) (s : σ) : Out σ (Option GoError) :=
  let r := Create namespace_ deployment s
  match r.err with
  | some err => ⟨some err, r.state, [⟨.error, "error creating Deployment " ++ err.Error, []⟩]⟩
  | none => ⟨r.err, r.state, [⟨.info, "created deployment " ++ r.obj.Name, []⟩]⟩

/-- Body of `CreateDeploymentV1`. -/
def CreateDeploymentV1 {σ : Type} (Create : CreateFn σ) (deployment : Deployment)
    (namespace_ : String) (s : σ) : Out σ (Option GoError) :=
  let r := Create namespace_ deployment s
  match r.err with
  | some err => ⟨some err, r.state, [⟨.error, "error creating Deployment " ++ err.Error, []⟩]⟩
  | none => ⟨r.err, r.state, [⟨.info, "created deployment " ++ r.obj.Name, []⟩]⟩

/-- Body of `GetDeployment`: the result object, the found flag and the error. -/
def GetDeployment {σ : Type} (Get : GetFn σ) (name namespace_ : String) (s : σ) :
    Out σ (Deployment × Bool × Option GoError) :=
  let r := Get namespace_ name s
  if IsNotFound r.err then
    ⟨(r.obj, false, r.err), r.state, [⟨.debug, "deployment %s not found", [name]⟩]⟩
  else
    match r.err with
    | some err =>
      ⟨(r.obj, false, some err), r.state,
        [logError err, ⟨.error, "error getting Deployment " ++ name, []⟩]⟩
    | none => ⟨(r.obj, true, r.err), r.state, []⟩

/-- Body of `GetDeployments`. -/
def GetDeployments {σ : Type} (List_ : ListFn σ) (selector namespace_ : String) (s : σ) :
    Out σ (List Deployment × Option GoError) :=
  let lo : ListOptions := ⟨selector⟩
  let r := List_ namespace_ lo s
  let failed :=
    match r.err with
    | some err =>
      [logError err, ⟨.error, "error getting Deployment list selector[" ++ selector ++ "]", []⟩]
    | none => []
  ⟨(r.obj, r.err), r.state, failed⟩

/-- Body of `patchDeployment`. -/
def patchDeployment {σ : Type} (Patch : PatchFn σ) (deploymentName namespace_ patch : String)
    (patchType : PatchType) (s : σ) : Out σ (Option GoError) :=
  let log0 : LogEntry :=
    ⟨.debug, "patching Deployment %s using patch type %s: %s",
      [deploymentName, reprStr patchType, patch]⟩
  let r := Patch namespace_ deploymentName patchType (.text patch) s
  match r.err with
  | some err => ⟨some err, r.state, [log0, logError err]⟩
  | none => ⟨none, r.state, [log0]⟩

/-- Body of `PatchDeploymentStrategicMerge`. -/
def PatchDeploymentStrategicMerge {σ : Type} (Patch : PatchFn σ)
    (deploymentName namespace_ patch : String) (s : σ) : Out σ (Option GoError) :=
  patchDeployment Patch deploymentName namespace_ patch .StrategicMergePatchType s

/-- Library `json.Marshal` on a slice of `IntThingSpec`; it has no failing case. -/
def jsonMarshalThings (things : List IntThingSpec) : Except GoError PatchBody :=
  .ok (.jsonPatch things)

/-- Body of `PatchReplicas`. -/
def PatchReplicas {σ : Type} (Patch : PatchFn σ) (name namespace_ jsonpath : String)
    (patchvalue : Int) (s : σ) : Out σ (Option GoError) :=
  let things : List IntThingSpec := [⟨"replace", jsonpath, patchvalue⟩]
  match jsonMarshalThings things with
  | .error err => ⟨some err, s, [⟨.error, "error in converting patch " ++ err.Error, []⟩]⟩
  | .ok patchBytes =>
    let r := Patch namespace_ name .JSONPatchType patchBytes s
    let failed :=
      match r.err with
      | some err => [logError err, ⟨.error, "error patching Deployment " ++ name, []⟩]
      | none => []
    ⟨r.err, r.state, failed ++ [⟨.info, "patch deployment " ++ name, []⟩]⟩

/-- What the two label-writing primitives leave when they return: the caller's definition
as written through the pointer, the returned error, the client state and the log. -/
structure Patched (σ : Type) where
  origDeployment : Deployment
  err : Option GoError
  state : σ
  logs : List LogEntry

/-- How a call of a label-writing primitive ends: it returns, or it panics with the client
in the state it was in at that point. -/
inductive Ended (σ : Type) where
  | returned (out : Patched σ)
  | panicked (p : GoPanic) (state : σ)

/-- Lines 172 to 178 of `MergePatchDeployment`: the six label writes, in order, each through
the definition the caller passed.  The selector is reached through a pointer and both maps
may be nil; a map that another field also points to is changed for that field too. -/
def writeRoleLabels (origDeployment : Deployment) (newname : String) :
    Except GoPanic Deployment := do
  let selector ← deref origDeployment.Spec.Selector
  let origDeployment ← mapAssign origDeployment selector.MatchLabels "name" newname
  let origDeployment ← mapAssign origDeployment selector.MatchLabels "primary" "true"
  let origDeployment ← mapAssign origDeployment selector.MatchLabels "replica" "false"
  let origDeployment ←
    mapAssign origDeployment origDeployment.Spec.Template.ObjectMeta.Labels "name" newname
  let origDeployment ←
    mapAssign origDeployment origDeployment.Spec.Template.ObjectMeta.Labels "primary" "true"
  mapAssign origDeployment origDeployment.Spec.Template.ObjectMeta.Labels "replica" "false"

/-- Body of `MergePatchDeployment`. -/
def MergePatchDeployment {σ : Type} (Patch : PatchFn σ) (origDeployment : Deployment)
    (newname namespace_ : String) (s : σ) : Ended σ :=
  match jsonMarshal origDeployment with
  | .error err => .returned ⟨origDeployment, some err, s, []⟩
  | .ok origData =>
    match writeRoleLabels origDeployment newname with
    | .error p => .panicked p s
    | .ok origDeployment =>
      match jsonMarshal origDeployment with
      | .error err => .returned ⟨origDeployment, some err, s, []⟩
      | .ok newData =>
        match CreateMergePatch origData newData with
        | .error err => .returned ⟨origDeployment, some err, s, []⟩
        | .ok patchBytes =>
          let r := Patch namespace_ origDeployment.Name .MergePatchType (.mergePatch patchBytes) s
          let failed :=
            match r.err with
            | some err =>
              [logError err, ⟨.error, "error merge patching Deployment " ++ newname, []⟩]
            | none => []
          .returned ⟨origDeployment, r.err, r.state,
            failed ++ [⟨.info, "merge patch deployment " ++ newname, []⟩]⟩

/-- Line 209 of `AddLabelToDeployment`: the label write; the map may be nil. -/
def writeLabel (origDeployment : Deployment) (key value : String) :
    Except GoPanic Deployment :=
  mapAssign origDeployment origDeployment.ObjectMeta.Labels key value

/-- Body of `AddLabelToDeployment`. -/
def AddLabelToDeployment {σ : Type} (Patch : PatchFn σ) (origDeployment : Deployment)
    (key value namespace_ : String) (s : σ) : Ended σ :=
  match jsonMarshal origDeployment with
  | .error err => .returned ⟨origDeployment, some err, s, []⟩
  | .ok origData =>
    match writeLabel origDeployment key value with
    | .error p => .panicked p s
    | .ok origDeployment =>
      match jsonMarshal origDeployment with
      | .error err => .returned ⟨origDeployment, some err, s, []⟩
      | .ok newData =>
        match CreateMergePatch origData newData with
        | .error err => .returned ⟨origDeployment, some err, s, []⟩
        | .ok patchBytes =>
          let r := Patch namespace_ origDeployment.Name .MergePatchType (.mergePatch patchBytes) s
          let failed :=
            match r.err with
            | some err =>
              [logError err, ⟨.error, "error add label to Deployment %s=%s", [key, value]⟩]
            | none => []
          .returned ⟨origDeployment, r.err, r.state,
            failed ++ [⟨.debug, "add label to deployment %s=%v", [key, value]⟩]⟩

/-- Body of `UpdateDeployment`. -/
def UpdateDeployment {σ : Type} (Update : UpdateFn σ) (deployment : Deployment) (s : σ) :
    Out σ (Option GoError) :=
  let r := Update deployment.Namespace deployment s
  match r.err with
  | some err =>
    ⟨some err, r.state,
      [logError err, ⟨.error, "error updating deployment %s", [deployment.Name]⟩]⟩
  | none => ⟨none, r.state, []⟩

/-- The definition `ScaleDeployment` hands to `UpdateDeployment`: its by-value copy of
`deployment` with `Spec.Replicas` pointing at `int32(replicas)`. -/
def scaled (deployment : Deployment) (replicas : Int) : Deployment :=
  let replicaCount := int32 replicas
  { deployment with Spec := { deployment.Spec with Replicas := some replicaCount } }

/-- Body of `ScaleDeployment`. -/
def ScaleDeployment {σ : Type} (Update : UpdateFn σ) (deployment : Deployment)
    (replicas : Int) (s : σ) : Out σ (Option GoError) :=
  let deployment := scaled deployment replicas
  let r := UpdateDeployment Update deployment s
  match r.ret with
  | some err =>
    ⟨some err, r.state,
      r.logs ++ [logError err,
        ⟨.error, "unable to update replica count to %d in order to scale deployment %s",
          [deployment.Name]⟩]⟩
  | none => ⟨none, r.state, r.logs⟩

/-! ## The platform side of `Update` and `Patch`

The API server is outside the repository.  For the claims that speak of the stored
deployment it is taken to keep one serialized definition per `(namespace, name)`, to
replace it on `Update`, and to apply a merge patch leaf by leaf (RFC 7386). -/

/-- The stored deployments, by namespace and name. -/
abbrev Store := Assoc (String × String) Doc

/-- Apply one entry of a merge patch: `null` removes the leaf, a value overwrites it. -/
def patchStep (doc : Doc) (e : Path × Option JLeaf) : Doc :=
  match e.2 with
  | none => Assoc.del doc e.1
  | some v => Assoc.set doc e.1 v

/-- Apply a merge patch to a document, entry by entry. -/
def applyMergePatch (doc : Doc) (patch : MergePatch) : Doc :=
  patch.foldl patchStep doc

/-- The reply when the named deployment is not stored. -/
def notFoundError (name : String) : GoError :=
  ⟨"deployments.apps \"" ++ name ++ "\" not found", true⟩

/-- `Update` against the store: replaces the stored definition of an existing deployment. -/
def Platform.Update : UpdateFn Store := fun namespace_ deployment s =>
  match Assoc.get s (namespace_, deployment.Name) with
  | none => ⟨(), some (notFoundError deployment.Name), s⟩
  | some _ => ⟨(), none, Assoc.set s (namespace_, deployment.Name) deployment.toDoc⟩

/-- `Patch` against the store: a merge patch is applied to the stored definition; the other
patch encodings are not interpreted and are refused. -/
def Platform.Patch : PatchFn Store := fun namespace_ name patchType body s =>
  match Assoc.get s (namespace_, name) with
  | none => ⟨(), some (notFoundError name), s⟩
  | some doc =>
    match patchType, body with
    | .MergePatchType, .mergePatch patch =>
      ⟨(), none, Assoc.set s (namespace_, name) (applyMergePatch doc patch)⟩
    | _, _ => ⟨(), some ⟨"unsupported patch", false⟩, s⟩

/-- The leaf of a role label under the selector match-labels. -/
def selectorLabel (k : String) : Path := ["spec", "selector", "matchLabels", k]

/-- The leaf of a role label under the pod-template labels. -/
def templateLabel (k : String) : Path := ["spec", "template", "metadata", "labels", k]

/-- The six role-label leaves. -/
def roleLabelPaths : List Path :=
  [selectorLabel "name", selectorLabel "primary", selectorLabel "replica",
   templateLabel "name", templateLabel "primary", templateLabel "replica"]

/-- A stored deployment carries `primary=true, replica=false` (selector and template). -/
def IsPrimary (doc : Doc) : Bool :=
  Assoc.get doc (selectorLabel "primary") == some (.str "true")
    && Assoc.get doc (selectorLabel "replica") == some (.str "false")
    && Assoc.get doc (templateLabel "primary") == some (.str "true")
    && Assoc.get doc (templateLabel "replica") == some (.str "false")

/-- A stored deployment carries `replica=true` (selector and template). -/
def IsReplica (doc : Doc) : Bool :=
  Assoc.get doc (selectorLabel "replica") == some (.str "true")
    && Assoc.get doc (templateLabel "replica") == some (.str "true")

/-- One `Patch` request as the client receives it. -/
structure PatchCall where
  namespace_ : String
  name : String
  patchType : PatchType
  body : PatchBody
  deriving DecidableEq, Repr

/-- A client that accepts every `Patch` and only records the requests it is sent. -/
def recordPatch : PatchFn (List PatchCall) := fun namespace_ name patchType body calls =>
  ⟨(), none, calls ++ [⟨namespace_, name, patchType, body⟩]⟩

/-- A client that accepts every `Update` and only records the definitions it is sent. -/
def recordUpdate : UpdateFn (List (String × Deployment)) := fun namespace_ deployment calls =>
  ⟨(), none, calls ++ [(namespace_, deployment)]⟩

/-- The six calls an in-scope event makes, in the order of the source. -/
def sixCalls (name : String) : List SetupWatchCall :=
  [(.Pod, name), (.Job, name), (.Pgpolicy, name), (.Pgreplica, name), (.Pgcluster, name),
   (.Pgtask, name)]

/-! ## Notions used in the statements -/

/-- What an in-scope add or update event does to the watch set: the six `SetupWatch` calls
in source order. -/
def setupAll (name : String) (w : WatchSet) : WatchSet :=
  SetupWatch .Pgtask name (SetupWatch .Pgcluster name (SetupWatch .Pgreplica name
    (SetupWatch .Pgpolicy name (SetupWatch .Job name (SetupWatch .Pod name w)))))

/-- An add or update event whose (new) object is an in-scope namespace called `name`. -/
def EventFor (cfg : Config) (name : String) (e : NamespaceEvent) : Prop :=
  match e with
  | .add obj => InScope cfg obj ∧ obj.Name = name
  | .update _ newObj => InScope cfg newObj ∧ newObj.Name = name
  | .delete _ => False

instance (cfg : Config) (name : String) (e : NamespaceEvent) :
    Decidable (EventFor cfg name e) := by
  cases e <;> unfold EventFor <;> infer_instance

/-- The map field under the selector (nil when the selector is). -/
def Deployment.matchLabelsRef (d : Deployment) : Option MapRef :=
  d.Spec.Selector.bind (fun sel => sel.MatchLabels)

/-- The selector match-labels of a definition. -/
def Deployment.matchLabels (d : Deployment) : Option GoMap :=
  d.read d.matchLabelsRef

/-- The pod-template labels of a definition. -/
def Deployment.templateLabels (d : Deployment) : Option GoMap :=
  d.read d.Spec.Template.ObjectMeta.Labels

/-- The map-typed fields of a definition other than the selector match-labels and the
pod-template labels. -/
def Deployment.otherMaps (d : Deployment) : List (Option MapRef) :=
  [d.ObjectMeta.Labels, d.ObjectMeta.Annotations, d.Spec.Template.ObjectMeta.Annotations]

/-- No other map-typed field of the definition is the same Go map as the selector
match-labels or the pod-template labels. -/
def Deployment.RoleMapsUnshared (d : Deployment) : Prop :=
  ∀ m ∈ d.otherMaps,
    m = none ∨ (m ≠ d.matchLabelsRef ∧ m ≠ d.Spec.Template.ObjectMeta.Labels)

instance (d : Deployment) : Decidable d.RoleMapsUnshared := by
  unfold Deployment.RoleMapsUnshared; infer_instance

/-- The definition `MergePatchDeployment` leaves in memory when the selector match-labels are
the map at `a1` and the pod-template labels the map at `a2`: the six writes of lines 172 to
178. -/
def promoted (d : Deployment) (newname : String) (a1 a2 : MapRef) : Deployment :=
  (((((d.assignAt a1 "name" newname).assignAt a1 "primary" "true").assignAt a1 "replica"
    "false").assignAt a2 "name" newname).assignAt a2 "primary" "true").assignAt a2 "replica"
    "false"

/-- What the role-label writes leave at key `k`, if they write it. -/
def roleValue (newname k : String) : Option String :=
  if k = "replica" then some "false"
  else if k = "primary" then some "true"
  else if k = "name" then some newname
  else none

/-- The key `k` with `p = pre ++ [k]`, when `p` is a leaf directly under `pre`. -/
def leafUnder : Path → Path → Option String
  | [], [k] => some k
  | [], _ => none
  | _ :: _, [] => none
  | a :: pre, b :: p => if a = b then leafUnder pre p else none

/-- The client state a call of a label-writing primitive leaves, however it ends. -/
def Ended.state {σ : Type} : Ended σ → σ
  | .returned out => out.state
  | .panicked _ s => s

/-- Which stored deployments carry which role: key, `IsPrimary`, `IsReplica`. -/
def roles (s : Store) : List ((String × String) × Bool × Bool) :=
  s.map (fun e => (e.1, IsPrimary e.2, IsReplica e.2))

/-- What `onAdd` and `onUpdate` test (lines 105 and 127): both labels read, with Go map
indexing, as the expected values. -/
def LabelsReadEqual (cfg : Config) (ns : Namespace) : Prop :=
  index ns.Labels cfg.LABEL_VENDOR = cfg.LABEL_CRUNCHY
    ∧ index ns.Labels cfg.LABEL_PGO_INSTALLATION_NAME = cfg.InstallationName

instance (cfg : Config) (ns : Namespace) : Decidable (LabelsReadEqual cfg ns) := by
  unfold LabelsReadEqual; infer_instance

/-- The leaves named by the merge patches among the requests sent. -/
def patchedLeaves (calls : List PatchCall) : List Path :=
  calls.flatMap (fun call =>
    match call.body with
    | .mergePatch patch => Assoc.keys patch
    | _ => [])

/-- The three role keys under each of the five map-typed fields. -/
def roleKeyedPaths : List Path :=
  [["metadata", "labels"], ["metadata", "annotations"], ["spec", "selector", "matchLabels"],
    ["spec", "template", "metadata", "labels"],
    ["spec", "template", "metadata", "annotations"]].flatMap
    (fun pre => [pre ++ ["name"], pre ++ ["primary"], pre ++ ["replica"]])

/-! ## Example inputs -/

/-- The configuration used in the examples. -/
def exampleConfig : Config := ⟨"vendor", "crunchydata", "pgo-installation-name", "dev"⟩

/-- An in-scope namespace for `exampleConfig`. -/
def exampleNamespace : Namespace :=
  ⟨"pgouser1", "/api/v1/namespaces/pgouser1",
    some [("vendor", "crunchydata"), ("pgo-installation-name", "dev")]⟩

/-- A namespace owned by another installation. -/
def foreignNamespace : Namespace :=
  ⟨"other", "/api/v1/namespaces/other",
    some [("vendor", "crunchydata"), ("pgo-installation-name", "prod")]⟩

/-- An informer whose initial list fails. -/
def failingListEnv : InformerEnv := ⟨some ⟨"connection refused", false⟩⟩

/-- A context cancelled at tick `7`. -/
def cancelledContext : Context := ⟨some 7, ⟨"context canceled", false⟩⟩

/-- A replica deployment of cluster `hippo`; its three label maps are three maps. -/
def replicaDeployment : Deployment :=
  ⟨⟨"hippo-rep1", "pgouser1", some 0, none⟩,
   ⟨some 1, some ⟨some 1⟩, ⟨⟨"", "", some 2, none⟩, "postgres:12"⟩, "Recreate"⟩,
   "available",
   [(0, [("vendor", "crunchydata")]),
    (1, [("name", "hippo-rep1"), ("pg-cluster", "hippo"), ("primary", "false"),
      ("replica", "true")]),
    (2, [("name", "hippo-rep1"), ("pg-cluster", "hippo"), ("primary", "false"),
      ("replica", "true")])]⟩

/-- A second replica deployment of cluster `hippo`. -/
def secondReplicaDeployment : Deployment :=
  ⟨⟨"hippo-rep2", "pgouser1", some 0, none⟩,
   ⟨some 1, some ⟨some 1⟩, ⟨⟨"", "", some 2, none⟩, "postgres:12"⟩, "Recreate"⟩,
   "available",
   [(0, [("vendor", "crunchydata")]),
    (1, [("name", "hippo-rep2"), ("pg-cluster", "hippo"), ("primary", "false"),
      ("replica", "true")]),
    (2, [("name", "hippo-rep2"), ("pg-cluster", "hippo"), ("primary", "false"),
      ("replica", "true")])]⟩

/-- The primary deployment of cluster `hippo`. -/
def primaryDeployment : Deployment :=
  ⟨⟨"hippo", "pgouser1", some 0, none⟩,
   ⟨some 1, some ⟨some 1⟩, ⟨⟨"", "", some 2, none⟩, "postgres:12"⟩, "Recreate"⟩,
   "available",
   [(0, [("vendor", "crunchydata")]),
    (1, [("name", "hippo"), ("pg-cluster", "hippo"), ("primary", "true"),
      ("replica", "false")]),
    (2, [("name", "hippo"), ("pg-cluster", "hippo"), ("primary", "true"),
      ("replica", "false")])]⟩

/-- A replica deployment built with one label map: its metadata labels, selector
match-labels and pod-template labels are the same Go map. -/
def sharedMapDeployment : Deployment :=
  ⟨⟨"hippo-rep1", "pgouser1", some 0, none⟩,
   ⟨some 1, some ⟨some 0⟩, ⟨⟨"", "", some 0, none⟩, "postgres:12"⟩, "Recreate"⟩,
   "available",
   [(0, [("name", "hippo-rep1"), ("pg-cluster", "hippo"), ("primary", "false"),
      ("replica", "true")])]⟩

/-- A definition whose selector pointer is nil. -/
def noSelectorDeployment : Deployment :=
  ⟨⟨"bare", "pgouser1", none, none⟩, ⟨none, none, ⟨⟨"", "", none, none⟩, ""⟩, ""⟩, "", []⟩

/-- The stored cluster `hippo`: its primary and one replica. -/
def hippoStore : Store :=
  [(("pgouser1", "hippo"), primaryDeployment.toDoc),
   (("pgouser1", "hippo-rep1"), replicaDeployment.toDoc)]

/-- A configuration whose `operator.InstallationName` is still the zero value. -/
def unconfiguredConfig : Config := ⟨"vendor", "crunchydata", "pgo-installation-name", ""⟩

/-- A namespace that carries the vendor label and no installation-name label. -/
def vendorOnlyNamespace : Namespace :=
  ⟨"legacy", "/api/v1/namespaces/legacy", some [("vendor", "crunchydata")]⟩

/-- The stored cluster `hippo` once its primary is gone: two replicas. -/
def replicasStore : Store :=
  [(("pgouser1", "hippo-rep2"), secondReplicaDeployment.toDoc),
   (("pgouser1", "hippo-rep1"), replicaDeployment.toDoc)]

/-- The replica deployment as stored after its strategy was changed on the platform. -/
def restrategizedDeployment : Deployment :=
  { replicaDeployment with Spec := { replicaDeployment.Spec with Strategy := "RollingUpdate" } }

/-- A store whose definition of `hippo-rep1` is newer than `replicaDeployment`. -/
def newerStore : Store :=
  [(("pgouser1", "hippo-rep1"), restrategizedDeployment.toDoc)]

/-- What the store holds at a leaf of a deployment. -/
def storedLeaf (s : Store) (key : String × String) (p : Path) : Option JLeaf :=
  (Assoc.get s key).bind (fun doc => Assoc.get doc p)

/-! ## Properties: the namespace controller -/

theorem index_of_carries (m : Option GoMap) (k v : String) (h : carries m k v) :
    index m k = v := by
  unfold carries lookup at h
  cases m with
  | none => simp at h
  | some entries =>
    simp only [Option.some_bind] at h
    simp [index, h]

theorem carries_of_index (m : Option GoMap) (k v : String) (hv : v ≠ "")
    (h : index m k = v) : carries m k v := by
  cases m with
  | none => exact absurd h.symm hv
  | some entries =>
    cases hget : Assoc.get entries k with
    | none => simp [index, hget] at h; exact absurd h.symm hv
    | some w =>
      simp [index, hget] at h
      simp [carries, lookup, hget, h]

theorem onAddCalls_eq (cfg : Config) (newNs : Namespace) :
    onAddCalls cfg newNs =
      if index newNs.Labels cfg.LABEL_VENDOR = cfg.LABEL_CRUNCHY
          ∧ index newNs.Labels cfg.LABEL_PGO_INSTALLATION_NAME = cfg.InstallationName
      then sixCalls newNs.Name else [] := by
  unfold onAddCalls onAdd
  by_cases h1 : index newNs.Labels cfg.LABEL_VENDOR = cfg.LABEL_CRUNCHY <;>
    by_cases h2 : index newNs.Labels cfg.LABEL_PGO_INSTALLATION_NAME = cfg.InstallationName <;>
    simp [h1, h2, recordSetupWatch, sixCalls]

theorem onUpdateCalls_eq (cfg : Config) (oldNs newNs : Namespace) :
    onUpdateCalls cfg oldNs newNs =
      if index newNs.Labels cfg.LABEL_VENDOR = cfg.LABEL_CRUNCHY
          ∧ index newNs.Labels cfg.LABEL_PGO_INSTALLATION_NAME = cfg.InstallationName
      then sixCalls newNs.Name else [] := by
  unfold onUpdateCalls onUpdate
  by_cases h1 : index newNs.Labels cfg.LABEL_VENDOR = cfg.LABEL_CRUNCHY <;>
    by_cases h2 : index newNs.Labels cfg.LABEL_PGO_INSTALLATION_NAME = cfg.InstallationName <;>
    simp [h1, h2, recordSetupWatch, sixCalls]

theorem inScope_iff_index (cfg : Config) (ns : Namespace)
    (hv : cfg.LABEL_CRUNCHY ≠ "") (hi : cfg.InstallationName ≠ "") :
    InScope cfg ns ↔
      (index ns.Labels cfg.LABEL_VENDOR = cfg.LABEL_CRUNCHY
        ∧ index ns.Labels cfg.LABEL_PGO_INSTALLATION_NAME = cfg.InstallationName) := by
  constructor
  · rintro ⟨h1, h2⟩
    exact ⟨index_of_carries _ _ _ h1, index_of_carries _ _ _ h2⟩
  · rintro ⟨h1, h2⟩
    exact ⟨carries_of_index _ _ _ hv h1, carries_of_index _ _ _ hi h2⟩

/-- C1, as the code has it: an add event and an update event (on its new object) make
`SetupWatch` calls if and only if the vendor label reads as the vendor value and the
installation-name label reads as the configured name, an absent label reading as the empty
string; otherwise no call is made.  Carrying both labels with those values always passes
the test, and is the same as passing it when the vendor value and the configured name are
not empty. -/
theorem watches_started_iff_labels_read_equal (cfg : Config) (oldNs newNs : Namespace) :
    (onAddCalls cfg newNs ≠ [] ↔ LabelsReadEqual cfg newNs)
      ∧ (onUpdateCalls cfg oldNs newNs ≠ [] ↔ LabelsReadEqual cfg newNs)
      ∧ (¬ LabelsReadEqual cfg newNs →
          onAddCalls cfg newNs = [] ∧ onUpdateCalls cfg oldNs newNs = [])
      ∧ (InScope cfg newNs → LabelsReadEqual cfg newNs)
      ∧ (cfg.LABEL_CRUNCHY ≠ "" → cfg.InstallationName ≠ "" →
          (LabelsReadEqual cfg newNs ↔ InScope cfg newNs)) := by
  unfold LabelsReadEqual
  refine ⟨?_, ?_, ?_, ?_, ?_⟩
  · rw [onAddCalls_eq]
    by_cases h : index newNs.Labels cfg.LABEL_VENDOR = cfg.LABEL_CRUNCHY
        ∧ index newNs.Labels cfg.LABEL_PGO_INSTALLATION_NAME = cfg.InstallationName
    · simp [h, sixCalls]
    · simp [h]
  · rw [onUpdateCalls_eq]
    by_cases h : index newNs.Labels cfg.LABEL_VENDOR = cfg.LABEL_CRUNCHY
        ∧ index newNs.Labels cfg.LABEL_PGO_INSTALLATION_NAME = cfg.InstallationName
    · simp [h, sixCalls]
    · simp [h]
  · intro h
    rw [onAddCalls_eq, onUpdateCalls_eq]
    simp [h]
  · intro h
    exact ⟨index_of_carries _ _ _ h.1, index_of_carries _ _ _ h.2⟩
  · intro hv hi
    exact (inScope_iff_index cfg newNs hv hi).symm

/-- C1, as stated, fails: with an empty configured installation name, a namespace that
carries the vendor label and no installation-name label is not in scope, yet an add event
and an update event for it make the six `SetupWatch` calls. -/
theorem watches_started_without_installation_label :
    ¬ InScope unconfiguredConfig vendorOnlyNamespace
      ∧ onAddCalls unconfiguredConfig vendorOnlyNamespace = sixCalls "legacy"
      ∧ onUpdateCalls unconfiguredConfig vendorOnlyNamespace vendorOnlyNamespace
        = sixCalls "legacy" := by
  decide

/-- C2: for an in-scope namespace, one add event and one update event each make exactly
the six `SetupWatch` calls pod, job, policy, replica, cluster, task, in that order, every
one with the namespace's name; the six controllers are pairwise different and are all of
them. -/
theorem in_scope_event_makes_six_calls (cfg : Config) (oldNs newNs : Namespace)
    (h : InScope cfg newNs) :
    onAddCalls cfg newNs = sixCalls newNs.Name
      ∧ onUpdateCalls cfg oldNs newNs = sixCalls newNs.Name
      ∧ sixCalls newNs.Name = Kind.all.map (fun k => (k, newNs.Name))
      ∧ (sixCalls newNs.Name).length = 6
      ∧ Kind.all.Nodup ∧ ∀ k : Kind, k ∈ Kind.all := by
  have h1 := index_of_carries _ _ _ h.1
  have h2 := index_of_carries _ _ _ h.2
  refine ⟨?_, ?_, rfl, rfl, by decide, ?_⟩
  · rw [onAddCalls_eq]; simp [h1, h2]
  · rw [onUpdateCalls_eq]; simp [h1, h2]
  · intro k; cases k <;> decide

theorem exampleNamespace_inScope : InScope exampleConfig exampleNamespace := by
  decide

/-- C2 at `exampleNamespace`: the six calls of an add and of an update event. -/
theorem in_scope_event_makes_six_calls_witness :
    onAddCalls exampleConfig exampleNamespace =
        [(.Pod, "pgouser1"), (.Job, "pgouser1"), (.Pgpolicy, "pgouser1"),
         (.Pgreplica, "pgouser1"), (.Pgcluster, "pgouser1"), (.Pgtask, "pgouser1")]
      ∧ onUpdateCalls exampleConfig foreignNamespace exampleNamespace =
        [(.Pod, "pgouser1"), (.Job, "pgouser1"), (.Pgpolicy, "pgouser1"),
         (.Pgreplica, "pgouser1"), (.Pgcluster, "pgouser1"), (.Pgtask, "pgouser1")] :=
  ⟨(in_scope_event_makes_six_calls exampleConfig foreignNamespace exampleNamespace
      exampleNamespace_inScope).1,
   (in_scope_event_makes_six_calls exampleConfig foreignNamespace exampleNamespace
      exampleNamespace_inScope).2.1⟩

/-! ### The watch set under the modelled `SetupWatch` -/

theorem mem_SetupWatch_self (k : Kind) (ns : String) (w : WatchSet) :
    (k, ns) ∈ SetupWatch k ns w := by
  unfold SetupWatch
  split
  · assumption
  · simp

theorem mem_SetupWatch_of_mem (k : Kind) (ns : String) (w : WatchSet) (x : Kind × String)
    (h : x ∈ w) : x ∈ SetupWatch k ns w := by
  unfold SetupWatch
  split
  · exact h
  · exact List.mem_append_left _ h

theorem SetupWatch_of_mem (k : Kind) (ns : String) (w : WatchSet) (h : (k, ns) ∈ w) :
    SetupWatch k ns w = w := by
  simp [SetupWatch, h]

theorem nodup_SetupWatch (k : Kind) (ns : String) (w : WatchSet) (h : w.Nodup) :
    (SetupWatch k ns w).Nodup := by
  unfold SetupWatch
  split
  · exact h
  · rename_i hn
    rw [List.nodup_append]
    refine ⟨h, List.nodup_singleton _, ?_⟩
    intro a ha hb
    simp only [List.mem_singleton] at hb
    exact hn (hb ▸ ha)

theorem mem_setupAll_of_mem (name : String) (w : WatchSet) (x : Kind × String) (h : x ∈ w) :
    x ∈ setupAll name w := by
  unfold setupAll
  repeat apply mem_SetupWatch_of_mem
  exact h

theorem mem_setupAll (name : String) (w : WatchSet) (k : Kind) :
    (k, name) ∈ setupAll name w := by
  unfold setupAll
  cases k
  · apply mem_SetupWatch_of_mem; apply mem_SetupWatch_of_mem; apply mem_SetupWatch_of_mem
    apply mem_SetupWatch_of_mem; apply mem_SetupWatch_of_mem
    exact mem_SetupWatch_self _ _ _
  · apply mem_SetupWatch_of_mem; apply mem_SetupWatch_of_mem; apply mem_SetupWatch_of_mem
    apply mem_SetupWatch_of_mem
    exact mem_SetupWatch_self _ _ _
  · apply mem_SetupWatch_of_mem; apply mem_SetupWatch_of_mem; apply mem_SetupWatch_of_mem
    exact mem_SetupWatch_self _ _ _
  · apply mem_SetupWatch_of_mem; apply mem_SetupWatch_of_mem
    exact mem_SetupWatch_self _ _ _
  · apply mem_SetupWatch_of_mem
    exact mem_SetupWatch_self _ _ _
  · exact mem_SetupWatch_self _ _ _

theorem nodup_setupAll (name : String) (w : WatchSet) (h : w.Nodup) :
    (setupAll name w).Nodup := by
  unfold setupAll
  repeat apply nodup_SetupWatch
  exact h

theorem setupAll_of_all_mem (name : String) (w : WatchSet)
    (h : ∀ k : Kind, (k, name) ∈ w) : setupAll name w = w := by
  unfold setupAll
  rw [SetupWatch_of_mem .Pod name w (h _), SetupWatch_of_mem .Job name w (h _),
    SetupWatch_of_mem .Pgpolicy name w (h _), SetupWatch_of_mem .Pgreplica name w (h _),
    SetupWatch_of_mem .Pgcluster name w (h _), SetupWatch_of_mem .Pgtask name w (h _)]

theorem setupAll_idem (name : String) (w : WatchSet) :
    setupAll name (setupAll name w) = setupAll name w :=
  setupAll_of_all_mem name _ (mem_setupAll name w)

theorem count_eq_one_of_nodup_mem (l : WatchSet) (x : Kind × String) (hn : l.Nodup)
    (hm : x ∈ l) : l.count x = 1 := by
  induction l with
  | nil => exact absurd hm (List.not_mem_nil _)
  | cons y l ih =>
    rw [List.nodup_cons] at hn
    rw [List.count_cons]
    by_cases hxy : y = x
    · subst hxy
      simp [List.count_eq_zero_of_not_mem hn.1]
    · have hx : x ∈ l := by
        rcases List.mem_cons.mp hm with h | h
        · exact absurd h.symm hxy
        · exact h
      simp [ih hn.2 hx, hxy]

theorem dispatch_eventFor (cfg : Config) (name : String) (e : NamespaceEvent)
    (h : EventFor cfg name e) (w : WatchSet) :
    ∃ r, dispatch cfg SetupWatch e w = .returned r ∧ r.controllers = setupAll name w := by
  cases e with
  | add obj =>
    obtain ⟨hs, rfl⟩ := h
    have h1 := index_of_carries _ _ _ hs.1
    have h2 := index_of_carries _ _ _ hs.2
    exact ⟨onAdd cfg SetupWatch obj w, rfl, by simp [onAdd, h1, h2, setupAll]⟩
  | update oldObj newObj =>
    obtain ⟨hs, rfl⟩ := h
    have h1 := index_of_carries _ _ _ hs.1
    have h2 := index_of_carries _ _ _ hs.2
    exact ⟨onUpdate cfg SetupWatch oldObj newObj w, rfl, by simp [onUpdate, h1, h2, setupAll]⟩
  | delete obj => exact absurd h (by simp [EventFor])

theorem deliver_cons_eventFor (cfg : Config) (name : String) (e : NamespaceEvent)
    (es : List NamespaceEvent) (h : EventFor cfg name e) (w : WatchSet) :
    deliver cfg SetupWatch (e :: es) w = deliver cfg SetupWatch es (setupAll name w) := by
  obtain ⟨r, hr, hc⟩ := dispatch_eventFor cfg name e h w
  simp only [deliver, hr, hc]

theorem deliver_eventsFor (cfg : Config) (name : String) (es : List NamespaceEvent)
    (hes : ∀ e ∈ es, EventFor cfg name e) (w : WatchSet) (hw : ∀ k : Kind, (k, name) ∈ w) :
    deliver cfg SetupWatch es w = w := by
  induction es with
  | nil => rfl
  | cons e es ih =>
    rw [deliver_cons_eventFor cfg name e es (hes e (List.mem_cons_self _ _)) w,
      setupAll_of_all_mem name w hw]
    exact ih (fun e2 h2 => hes e2 (List.mem_cons_of_mem _ h2))

/-- C3: with `SetupWatch` the idempotent start of a (kind, namespace) watch, any sequence of
one or more add/update events for an in-scope namespace leaves the watch set that the
first event alone leaves; that set holds a watch for the namespace for every tracked kind,
and exactly one each when the set had no duplicate before. -/
theorem repeated_events_keep_one_watch_per_kind (cfg : Config) (name : String)
    (e : NamespaceEvent) (es : List NamespaceEvent) (w : WatchSet)
    (he : EventFor cfg name e) (hes : ∀ e2 ∈ es, EventFor cfg name e2) :
    deliver cfg SetupWatch (e :: es) w = deliver cfg SetupWatch [e] w
      ∧ (∀ k : Kind, (k, name) ∈ deliver cfg SetupWatch (e :: es) w)
      ∧ (w.Nodup → ∀ k : Kind, (deliver cfg SetupWatch (e :: es) w).count (k, name) = 1) := by
  have h1 : deliver cfg SetupWatch [e] w = setupAll name w := by
    rw [deliver_cons_eventFor cfg name e [] he w]; rfl
  have h2 : deliver cfg SetupWatch (e :: es) w = setupAll name w := by
    rw [deliver_cons_eventFor cfg name e es he w]
    exact deliver_eventsFor cfg name es hes _ (mem_setupAll name w)
  refine ⟨by rw [h1, h2], ?_, ?_⟩
  · intro k; rw [h2]; exact mem_setupAll name w k
  · intro hw k
    rw [h2]
    exact count_eq_one_of_nodup_mem _ _ (nodup_setupAll name w hw) (mem_setupAll name w k)

/-- C3 at `exampleNamespace`: add, update, add leave what the first add leaves. -/
theorem repeated_events_keep_one_watch_per_kind_witness :
    deliver exampleConfig SetupWatch
        [.add exampleNamespace, .update foreignNamespace exampleNamespace, .add exampleNamespace]
        [(.Pod, "pgouser1"), (.Pod, "older")]
      = deliver exampleConfig SetupWatch [.add exampleNamespace]
        [(.Pod, "pgouser1"), (.Pod, "older")] :=
  (repeated_events_keep_one_watch_per_kind exampleConfig "pgouser1" (.add exampleNamespace)
    [.update foreignNamespace exampleNamespace, .add exampleNamespace]
    [(.Pod, "pgouser1"), (.Pod, "older")]
    ⟨exampleNamespace_inScope, rfl⟩
    (by
      intro e2 h2
      simp only [List.mem_cons, List.mem_singleton, List.not_mem_nil, or_false] at h2
      rcases h2 with rfl | rfl
      · exact ⟨exampleNamespace_inScope, rfl⟩
      · exact ⟨exampleNamespace_inScope, rfl⟩)).1

theorem onAdd_controllers {σ : Type} (cfg : Config) (setupWatch : Kind → String → σ → σ)
    (obj : Namespace) (c : σ) :
    (onAdd cfg setupWatch obj c).controllers = c
      ∨ (onAdd cfg setupWatch obj c).controllers
        = setupWatch .Pgtask obj.Name (setupWatch .Pgcluster obj.Name
            (setupWatch .Pgreplica obj.Name (setupWatch .Pgpolicy obj.Name
              (setupWatch .Job obj.Name (setupWatch .Pod obj.Name c))))) := by
  unfold onAdd
  dsimp only
  split
  · exact Or.inl rfl
  · exact Or.inr rfl

theorem onUpdate_controllers {σ : Type} (cfg : Config) (setupWatch : Kind → String → σ → σ)
    (oldObj newObj : Namespace) (c : σ) :
    (onUpdate cfg setupWatch oldObj newObj c).controllers = c
      ∨ (onUpdate cfg setupWatch oldObj newObj c).controllers
        = setupWatch .Pgtask newObj.Name (setupWatch .Pgcluster newObj.Name
            (setupWatch .Pgreplica newObj.Name (setupWatch .Pgpolicy newObj.Name
              (setupWatch .Job newObj.Name (setupWatch .Pod newObj.Name c))))) := by
  unfold onUpdate
  dsimp only
  split
  · exact Or.inl rfl
  · exact Or.inr rfl

theorem onDelete_controllers {σ : Type} (cfg : Config) (obj : DeletedObject) (c : σ) :
    (onDelete cfg obj c).controllers = c := by
  cases obj with
  | finalStateUnknown key ns => rfl
  | object ns =>
    unfold onDelete
    dsimp only
    split <;> rfl

/-- C12: no namespace event tears a watch down.  For any controllers whose `SetupWatch`
never drops a tracked watch (as the idempotent start of a watch does not), every watch
tracked before an add, update or delete event for any namespace is still tracked when the
handler ends, and a delete event leaves the controllers exactly as they were: handed the
deleted namespace the handler returns having only logged, handed a tombstone it panics at
its type assertion having called nothing. -/
theorem no_event_tears_down_a_watch (cfg : Config) (σ : Type)
    (tracked : σ → Kind × String → Prop) (setupWatch : Kind → String → σ → σ)
    (hkeep : ∀ k ns c x, tracked c x → tracked (setupWatch k ns c) x)
    (e : NamespaceEvent) (c : σ) :
    (∀ x, tracked c x → tracked (dispatch cfg setupWatch e c).controllers x)
      ∧ (∀ obj, (dispatch cfg setupWatch (.delete obj) c).controllers = c)
      ∧ (∀ ns, ∃ logs, dispatch cfg setupWatch (.delete (.object ns)) c = .returned ⟨c, logs⟩)
      ∧ (∀ key ns, dispatch cfg setupWatch (.delete (.finalStateUnknown key ns)) c
          = .panicked .interfaceConversion c []) := by
  refine ⟨?_, fun obj => onDelete_controllers cfg obj c, ?_, fun key ns => rfl⟩
  · intro x hx
    cases e with
    | add obj =>
      have hd : (dispatch cfg setupWatch (.add obj) c).controllers
          = (onAdd cfg setupWatch obj c).controllers := rfl
      rw [hd]
      rcases onAdd_controllers cfg setupWatch obj c with h | h
      · rw [h]; exact hx
      · rw [h]
        exact hkeep _ _ _ _ (hkeep _ _ _ _ (hkeep _ _ _ _ (hkeep _ _ _ _ (hkeep _ _ _ _
          (hkeep _ _ _ _ hx)))))
    | update oldObj newObj =>
      have hd : (dispatch cfg setupWatch (.update oldObj newObj) c).controllers
          = (onUpdate cfg setupWatch oldObj newObj c).controllers := rfl
      rw [hd]
      rcases onUpdate_controllers cfg setupWatch oldObj newObj c with h | h
      · rw [h]; exact hx
      · rw [h]
        exact hkeep _ _ _ _ (hkeep _ _ _ _ (hkeep _ _ _ _ (hkeep _ _ _ _ (hkeep _ _ _ _
          (hkeep _ _ _ _ hx)))))
    | delete obj =>
      have hd : (dispatch cfg setupWatch (.delete obj) c).controllers = c :=
        onDelete_controllers cfg obj c
      rw [hd]; exact hx
  · intro ns
    show ∃ logs, onDelete cfg (.object ns) c = .returned ⟨c, logs⟩
    unfold onDelete
    dsimp only
    split
    · exact ⟨_, rfl⟩
    · exact ⟨_, rfl⟩

/-- C12 at the modelled `SetupWatch`: an update that takes `pgouser1` out of scope keeps its
watch, an in-scope add keeps the watch of another namespace, a delete changes nothing, and
a delete handed a tombstone panics with the watch set as it was. -/
theorem no_event_tears_down_a_watch_witness :
    (Kind.Pod, "pgouser1") ∈ (dispatch exampleConfig SetupWatch
        (.update exampleNamespace foreignNamespace) [(.Pod, "pgouser1")]).controllers
      ∧ (Kind.Pod, "older") ∈ (dispatch exampleConfig SetupWatch
        (.add exampleNamespace) [(.Pod, "older")]).controllers
      ∧ (dispatch exampleConfig SetupWatch (.delete (.object exampleNamespace))
        [(.Pod, "pgouser1")]).controllers = [(.Pod, "pgouser1")]
      ∧ dispatch exampleConfig SetupWatch
          (.delete (.finalStateUnknown "pgouser1" exampleNamespace)) [(.Pod, "pgouser1")]
        = .panicked .interfaceConversion [(.Pod, "pgouser1")] [] :=
  ⟨(no_event_tears_down_a_watch exampleConfig WatchSet (fun w x => x ∈ w) SetupWatch
      (fun k ns c x h => mem_SetupWatch_of_mem k ns c x h)
      (.update exampleNamespace foreignNamespace) [(.Pod, "pgouser1")]).1 _
      (List.mem_singleton.mpr rfl),
   (no_event_tears_down_a_watch exampleConfig WatchSet (fun w x => x ∈ w) SetupWatch
      (fun k ns c x h => mem_SetupWatch_of_mem k ns c x h)
      (.add exampleNamespace) [(.Pod, "older")]).1 _ (List.mem_singleton.mpr rfl),
   (no_event_tears_down_a_watch exampleConfig WatchSet (fun w x => x ∈ w) SetupWatch
      (fun k ns c x h => mem_SetupWatch_of_mem k ns c x h)
      (.delete (.object exampleNamespace)) [(.Pod, "pgouser1")]).2.1 (.object exampleNamespace),
   (no_event_tears_down_a_watch exampleConfig WatchSet (fun w x => x ∈ w) SetupWatch
      (fun k ns c x h => mem_SetupWatch_of_mem k ns c x h)
      (.delete (.object exampleNamespace)) [(.Pod, "pgouser1")]).2.2.2 "pgouser1"
      exampleNamespace⟩

/-! ## Properties: `Run` and `watchNamespaces` -/

/-- C11, as the code has it: `watchNamespaces` returns nil whatever the outcome of the
informer's initial list, so `Run` never takes its error branch; it returns the context's
error at the tick of the cancellation signal, and stays blocked when no signal comes. -/
theorem run_waits_for_cancellation (env : InformerEnv) (ctx : Context) :
    (watchNamespaces env ctx).err = none
      ∧ (∀ t, ctx.doneAt = some t →
          Run env ctx = .returned t (some ctx.Err) (watchNamespaces env ctx).logs)
      ∧ (ctx.doneAt = none → Run env ctx = .blocked (watchNamespaces env ctx).logs) := by
  refine ⟨rfl, ?_, ?_⟩
  · intro t ht; simp [Run, watchNamespaces, ht]
  · intro ht; simp [Run, watchNamespaces, ht]

/-- C11, as stated, fails: with an initial list that fails and a context cancelled at tick
`7`, `watchNamespaces` does not fail and `Run` does not return the list error at tick `0`;
it waits for the cancellation and returns the context's error. -/
theorem run_ignores_failed_initial_list :
    failingListEnv.initialList ≠ none
      ∧ (watchNamespaces failingListEnv cancelledContext).err = none
      ∧ (∀ logs, Run failingListEnv cancelledContext
          ≠ .returned 0 failingListEnv.initialList logs)
      ∧ Run failingListEnv cancelledContext
        = .returned 7 (some cancelledContext.Err)
            [⟨.info, "starting namespace controller", []⟩] := by
  refine ⟨by decide, rfl, ?_, by decide⟩
  intro logs h
  simp [Run, watchNamespaces, cancelledContext] at h

/-! ## Properties: `apis/cr/v1/cluster.go` -/

/-- C9: `Validate` returns the nil error exactly on "required", "preferred", "disabled" and
the empty string, and a non-nil error on every other string. -/
theorem validate_ok_iff (p : PodAntiAffinityType) :
    (p.Validate = none ↔ (p = "required" ∨ p = "preferred" ∨ p = "disabled" ∨ p = ""))
      ∧ (¬ (p = "required" ∨ p = "preferred" ∨ p = "disabled" ∨ p = "")
          → ∃ err, p.Validate = some err) := by
  unfold PodAntiAffinityType.Validate PodAntiAffinityRequired PodAntiAffinityPreffered
    PodAntiAffinityDisabled
  by_cases h : p = "required" ∨ p = "preferred" ∨ p = "disabled" ∨ p = ""
  · simp [h]
  · simp [h]

/-- C14: `IsTLSEnabled` is true exactly when both secret names are non-empty, and false when
either is empty. -/
theorem isTLSEnabled_iff (t : TLSSpec) :
    (t.IsTLSEnabled = true ↔ (t.TLSSecret ≠ "" ∧ t.CASecret ≠ ""))
      ∧ ((t.TLSSecret = "" ∨ t.CASecret = "") → t.IsTLSEnabled = false) := by
  unfold TLSSpec.IsTLSEnabled
  constructor
  · simp
  · rintro (h | h) <;> simp [h]

/-- C13, as the code has it: `cluster.go` declares five state constants, "pgcluster Created",
"pgcluster Processed", "pgcluster Initialized", "pgcluster Restoring" and "pgcluster
Shutdown", pairwise distinct; the state's type is the open string type, and the state of a
status that was never written is none of the five. -/
theorem cluster_state_constants :
    PgclusterState.declared
        = ["pgcluster Created", "pgcluster Processed", "pgcluster Initialized",
           "pgcluster Restoring", "pgcluster Shutdown"]
      ∧ PgclusterState.declared.length = 5
      ∧ PgclusterState.declared.Nodup
      ∧ PgclusterStatus.zero.State ∉ PgclusterState.declared := by
  refine ⟨rfl, rfl, by decide, by decide⟩

/-- C13, as stated, fails: the state is not always one of the five values; the zero value
of `PgclusterStatus` has the empty state, which none of the five constants is. -/
theorem zero_status_state_not_declared :
    PgclusterStatus.zero.State = ""
      ∧ ¬ (PgclusterStatus.zero.State = PgclusterStateCreated
        ∨ PgclusterStatus.zero.State = PgclusterStateProcessed
        ∨ PgclusterStatus.zero.State = PgclusterStateInitialized
        ∨ PgclusterStatus.zero.State = PgclusterStateRestore
        ∨ PgclusterStatus.zero.State = PgclusterStateShutdown) := by
  decide

/-! ## Properties: the deployment primitives -/

/-- C15: `GetDeployment` passes the client's result object and error through and sets the
found flag exactly when the client returned no error; so a not-found failure and any other
failure give results that differ in the returned error only. -/
theorem getDeployment_found_iff_no_error (σ : Type) (Get : GetFn σ)
    (name namespace_ : String) (s : σ) :
    (GetDeployment Get name namespace_ s).ret.1 = (Get namespace_ name s).obj
      ∧ ((GetDeployment Get name namespace_ s).ret.2.1 = true ↔ (Get namespace_ name s).err = none)
      ∧ (GetDeployment Get name namespace_ s).ret.2.2 = (Get namespace_ name s).err
      ∧ (GetDeployment Get name namespace_ s).state = (Get namespace_ name s).state := by
  unfold GetDeployment
  generalize Get namespace_ name s = r
  obtain ⟨obj, err, st⟩ := r
  cases err with
  | none => simp [IsNotFound]
  | some err =>
    by_cases hn : err.notFound = true
    · simp [IsNotFound, hn]
    · simp [IsNotFound, hn]

/-- C8: `PatchReplicas` makes one `Patch` call, of type JSON patch, whose document is the
single operation with op "replace", the given path and the given value; its result is that
call's. -/
theorem patchReplicas_one_replace_operation (σ : Type) (Patch : PatchFn σ)
    (name namespace_ jsonpath : String) (patchvalue : Int) (s : σ) :
    (PatchReplicas Patch name namespace_ jsonpath patchvalue s).ret
        = (Patch namespace_ name .JSONPatchType
            (.jsonPatch [⟨"replace", jsonpath, patchvalue⟩]) s).err
      ∧ (PatchReplicas Patch name namespace_ jsonpath patchvalue s).state
        = (Patch namespace_ name .JSONPatchType
            (.jsonPatch [⟨"replace", jsonpath, patchvalue⟩]) s).state
      ∧ (PatchReplicas recordPatch name namespace_ jsonpath patchvalue []).state
        = [⟨namespace_, name, .JSONPatchType, .jsonPatch [⟨"replace", jsonpath, patchvalue⟩]⟩] := by
  simp [PatchReplicas, jsonMarshalThings, recordPatch]

/-! ### Association lists -/

theorem Assoc.get_set {κ ν : Type} [DecidableEq κ] (m : Assoc κ ν) (k k2 : κ) (v : ν) :
    Assoc.get (Assoc.set m k v) k2 = if k = k2 then some v else Assoc.get m k2 := by
  induction m with
  | nil => simp [Assoc.set, Assoc.get]
  | cons e m ih =>
    obtain ⟨k0, v0⟩ := e
    by_cases h0 : k0 = k
    · subst h0
      by_cases h2 : k0 = k2
      · simp [Assoc.set, Assoc.get, h2]
      · simp [Assoc.set, Assoc.get, h2]
    · by_cases h2 : k0 = k2
      · subst h2
        have : ¬ k = k0 := fun h => h0 h.symm
        simp [Assoc.set, Assoc.get, h0, this]
      · simp [Assoc.set, Assoc.get, h0, h2, ih]

theorem Assoc.get_del {κ ν : Type} [DecidableEq κ] (m : Assoc κ ν) (k k2 : κ) :
    Assoc.get (Assoc.del m k) k2 = if k = k2 then none else Assoc.get m k2 := by
  induction m with
  | nil => simp [Assoc.del, Assoc.get]
  | cons e m ih =>
    obtain ⟨k0, v0⟩ := e
    by_cases h0 : k0 = k
    · subst h0
      by_cases h2 : k0 = k2
      · subst h2
        simp [Assoc.del, ih]
      · simp [Assoc.del, Assoc.get, h2, ih]
    · by_cases h2 : k0 = k2
      · subst h2
        have : ¬ k = k0 := fun h => h0 h.symm
        simp [Assoc.del, Assoc.get, h0, this]
      · simp [Assoc.del, Assoc.get, h0, h2, ih]

theorem Assoc.get_append {κ ν : Type} [DecidableEq κ] (a b : Assoc κ ν) (k : κ) :
    Assoc.get (a ++ b) k = (Assoc.get a k).or (Assoc.get b k) := by
  induction a with
  | nil => simp [Assoc.get]
  | cons e a ih =>
    obtain ⟨k0, v0⟩ := e
    by_cases h0 : k0 = k
    · simp [Assoc.get, h0]
    · simp [Assoc.get, h0, ih]

theorem Assoc.get_isSome_of_mem_keys {κ ν : Type} [DecidableEq κ] (m : Assoc κ ν) (k : κ)
    (h : k ∈ Assoc.keys m) : Assoc.get m k ≠ none := by
  induction m with
  | nil => simp [Assoc.keys] at h
  | cons e m ih =>
    obtain ⟨k0, v0⟩ := e
    by_cases h0 : k0 = k
    · simp [Assoc.get, h0]
    · have : k ∈ Assoc.keys m := by
        simp only [Assoc.keys, List.map_cons, List.mem_cons] at h
        rcases h with h | h
        · exact absurd h.symm h0
        · exact h
      simpa [Assoc.get, h0] using ih this

theorem Assoc.mem_keys_of_get {κ ν : Type} [DecidableEq κ] (m : Assoc κ ν) (k : κ) (v : ν)
    (h : Assoc.get m k = some v) : k ∈ Assoc.keys m := by
  induction m with
  | nil => simp [Assoc.get] at h
  | cons e m ih =>
    obtain ⟨k0, v0⟩ := e
    by_cases h0 : k0 = k
    · simp [Assoc.keys, h0]
    · simp only [Assoc.get, h0, if_false] at h
      simp only [Assoc.keys, List.map_cons, List.mem_cons]
      exact Or.inr (ih h)

theorem Assoc.set_of_get {κ ν : Type} [DecidableEq κ] (m : Assoc κ ν) (k : κ) (v : ν)
    (h : Assoc.get m k = some v) : Assoc.set m k v = m := by
  induction m with
  | nil => simp [Assoc.get] at h
  | cons e m ih =>
    obtain ⟨k0, v0⟩ := e
    by_cases h0 : k0 = k
    · subst h0
      simp only [Assoc.get, if_true, Option.some.injEq] at h
      simp [Assoc.set, h]
    · simp only [Assoc.get, h0, if_false] at h
      simp [Assoc.set, h0, ih h]

/-! ### Serialized definitions and merge patches -/

theorem leafUnder_eq_some (pre p : Path) (k : String) :
    leafUnder pre p = some k ↔ p = pre ++ [k] := by
  induction pre generalizing p with
  | nil =>
    cases p with
    | nil => simp [leafUnder]
    | cons b p =>
      cases p with
      | nil => simp [leafUnder]
      | cons c p => simp [leafUnder]
  | cons a pre ih =>
    cases p with
    | nil => simp [leafUnder]
    | cons b p =>
      by_cases hab : a = b
      · subst hab
        simp [leafUnder, ih]
      · have : ¬ b = a := fun h => hab h.symm
        simp [leafUnder, hab, this]

theorem get_strField (q : Path) (s : String) (p : Path) :
    Assoc.get (strField q s) p = if s ≠ "" ∧ q = p then some (.str s) else none := by
  unfold strField
  by_cases hs : s = ""
  · simp [hs, Assoc.get]
  · by_cases hq : q = p
    · simp [hs, hq, Assoc.get]
    · simp [hs, hq, Assoc.get]

theorem get_mapField (pre : Path) (m : Option GoMap) (p : Path) :
    Assoc.get (mapField pre m) p
      = (leafUnder pre p).bind (fun k => (lookup m k).map JLeaf.str) := by
  cases m with
  | none =>
    cases leafUnder pre p <;> simp [mapField, Assoc.get, lookup]
  | some entries =>
    simp only [mapField, lookup, Option.some_bind]
    induction entries with
    | nil => cases leafUnder pre p <;> simp [Assoc.get]
    | cons e entries ih =>
      obtain ⟨k0, v0⟩ := e
      simp only [List.map_cons, Assoc.get]
      by_cases h : pre ++ [k0] = p
      · have hl : leafUnder pre p = some k0 := (leafUnder_eq_some pre p k0).mpr h.symm
        simp [h, hl]
      · rw [if_neg h, ih]
        cases hl : leafUnder pre p with
        | none => rfl
        | some k =>
          have hp : p = pre ++ [k] := (leafUnder_eq_some pre p k).mp hl
          have hk : ¬ k0 = k := by
            intro hk
            exact h (by rw [hp, hk])
          simp [hk]

theorem mem_keys_mergeDiff (a b : Doc) (p : Path) (h : p ∈ Assoc.keys (mergeDiff a b)) :
    Assoc.get a p ≠ Assoc.get b p := by
  unfold mergeDiff Assoc.keys at h
  simp only [List.map_append, List.mem_append, List.mem_map, List.mem_filterMap] at h
  rcases h with ⟨e, ⟨q, _, hq⟩, rfl⟩ | ⟨e, ⟨q, hqa, hq⟩, rfl⟩
  · by_cases hc : Assoc.get a q = Assoc.get b q
    · simp [hc] at hq
    · simp only [hc, if_false, Option.some.injEq] at hq
      subst hq
      exact hc
  · by_cases hc : Assoc.get b q = none
    · simp only [hc, if_true, Option.some.injEq] at hq
      subst hq
      simp only [hc]
      exact Assoc.get_isSome_of_mem_keys a q (List.mem_map.mpr hqa)
    · simp [hc] at hq

theorem mergeDiff_entries (a b : Doc) (e : Path × Option JLeaf) (h : e ∈ mergeDiff a b) :
    e.2 = Assoc.get b e.1 := by
  unfold mergeDiff at h
  simp only [List.mem_append, List.mem_filterMap] at h
  rcases h with ⟨q, _, hq⟩ | ⟨q, _, hq⟩
  · by_cases hc : Assoc.get a q = Assoc.get b q
    · simp [hc] at hq
    · simp only [hc, if_false, Option.some.injEq] at hq
      subst hq
      rfl
  · by_cases hc : Assoc.get b q = none
    · simp only [hc, if_true, Option.some.injEq] at hq
      subst hq
      exact hc.symm
    · simp [hc] at hq

theorem mem_keys_mergeDiff_of_ne (a b : Doc) (p : Path)
    (h : Assoc.get a p ≠ Assoc.get b p) : p ∈ Assoc.keys (mergeDiff a b) := by
  unfold mergeDiff Assoc.keys
  simp only [List.map_append, List.mem_append, List.mem_map, List.mem_filterMap]
  cases hb : Assoc.get b p with
  | some v =>
    left
    refine ⟨(p, some v), ⟨p, List.mem_map.mp (Assoc.mem_keys_of_get b p v hb), ?_⟩, rfl⟩
    rw [hb] at h
    simp [h, hb]
  | none =>
    right
    cases ha : Assoc.get a p with
    | none => rw [ha, hb] at h; exact absurd rfl h
    | some w =>
      exact ⟨(p, none), ⟨p, List.mem_map.mp (Assoc.mem_keys_of_get a p w ha), by simp [hb]⟩, rfl⟩

theorem get_applyMergePatch_of_not_mem (doc : Doc) (patch : MergePatch) (p : Path)
    (h : p ∉ Assoc.keys patch) : Assoc.get (applyMergePatch doc patch) p = Assoc.get doc p := by
  unfold applyMergePatch
  induction patch generalizing doc with
  | nil => rfl
  | cons e patch ih =>
    obtain ⟨q, w⟩ := e
    simp only [Assoc.keys, List.map_cons, List.mem_cons, not_or] at h
    have hq : ¬ q = p := fun hh => h.1 hh.symm
    simp only [List.foldl_cons]
    rw [ih _ h.2]
    cases w with
    | none => simp [patchStep, Assoc.get_del, hq]
    | some v => simp [patchStep, Assoc.get_set, hq]

theorem get_applyMergePatch_of_mem (doc : Doc) (patch : MergePatch) (f : Path → Option JLeaf)
    (hf : ∀ e ∈ patch, e.2 = f e.1) (p : Path) (h : p ∈ Assoc.keys patch) :
    Assoc.get (applyMergePatch doc patch) p = f p := by
  induction patch generalizing doc with
  | nil => simp [Assoc.keys] at h
  | cons e patch ih =>
    obtain ⟨q, w⟩ := e
    have hstep : applyMergePatch doc ((q, w) :: patch)
        = applyMergePatch (patchStep doc (q, w)) patch := rfl
    rw [hstep]
    by_cases hp : p ∈ Assoc.keys patch
    · exact ih _ (fun e he => hf e (List.mem_cons_of_mem _ he)) hp
    · rw [get_applyMergePatch_of_not_mem _ _ _ hp]
      have hq : q = p := by
        simp only [Assoc.keys, List.map_cons, List.mem_cons] at h
        rcases h with h | h
        · exact h.symm
        · exact absurd h hp
      have hw : w = f q := hf (q, w) (List.mem_cons_self _ _)
      subst hq
      rw [← hw]
      cases w with
      | none => simp [patchStep, Assoc.get_del]
      | some v => simp [patchStep, Assoc.get_set]

/-- Applying the patch computed from `a` and `b`: every leaf the patch names ends with its
value in `b`, every other leaf keeps the value stored. -/
theorem get_apply_mergeDiff (stored a b : Doc) (p : Path) :
    Assoc.get (applyMergePatch stored (mergeDiff a b)) p
      = if Assoc.get a p = Assoc.get b p then Assoc.get stored p else Assoc.get b p := by
  by_cases h : Assoc.get a p = Assoc.get b p
  · rw [if_pos h]
    apply get_applyMergePatch_of_not_mem
    intro hm
    exact mem_keys_mergeDiff a b p hm h
  · rw [if_neg h]
    exact get_applyMergePatch_of_mem stored _ (fun q => Assoc.get b q)
      (fun e he => mergeDiff_entries a b e he) p (mem_keys_mergeDiff_of_ne a b p h)

/-! ### The label writes -/

theorem entriesAt_assignAt (d : Deployment) (a : MapRef) (k v : String) (b : MapRef) :
    (d.assignAt a k v).entriesAt b
      = if a = b then Assoc.set (d.entriesAt a) k v else d.entriesAt b := by
  unfold Deployment.assignAt Deployment.entriesAt
  simp only [Assoc.get_set]
  by_cases h : a = b
  · simp [h]
  · simp [h]

theorem get_entriesAt_assignAt (d : Deployment) (a : MapRef) (k v : String) (b : MapRef)
    (k2 : String) :
    Assoc.get ((d.assignAt a k v).entriesAt b) k2
      = if a = b ∧ k = k2 then some v else Assoc.get (d.entriesAt b) k2 := by
  rw [entriesAt_assignAt]
  by_cases h : a = b
  · subst h
    by_cases hk : k = k2
    · simp [Assoc.get_set, hk]
    · simp [Assoc.get_set, hk]
  · simp [h]

theorem assignAt_fields (d : Deployment) (a : MapRef) (k v : String) :
    (d.assignAt a k v).ObjectMeta = d.ObjectMeta ∧ (d.assignAt a k v).Spec = d.Spec
      ∧ (d.assignAt a k v).Status = d.Status :=
  ⟨rfl, rfl, rfl⟩

theorem promoted_fields (d : Deployment) (s : String) (a1 a2 : MapRef) :
    (promoted d s a1 a2).ObjectMeta = d.ObjectMeta ∧ (promoted d s a1 a2).Spec = d.Spec
      ∧ (promoted d s a1 a2).Status = d.Status :=
  ⟨rfl, rfl, rfl⟩

theorem roleValue_or (s k : String) (o : Option String) :
    (roleValue s k).or o
      = if k = "replica" then some "false"
        else if k = "primary" then some "true"
        else if k = "name" then some s
        else o := by
  unfold roleValue
  by_cases k1 : k = "replica"
  · simp [k1]
  · by_cases k2 : k = "primary"
    · simp [k1, k2]
    · by_cases k3 : k = "name"
      · simp [k1, k2, k3]
      · simp [k1, k2, k3]

theorem get_entriesAt_roleWrites (d : Deployment) (s : String) (a b : MapRef) (k : String) :
    Assoc.get ((((d.assignAt a "name" s).assignAt a "primary" "true").assignAt a "replica"
        "false").entriesAt b) k
      = if a = b then (roleValue s k).or (Assoc.get (d.entriesAt b) k)
        else Assoc.get (d.entriesAt b) k := by
  simp only [get_entriesAt_assignAt, roleValue_or]
  by_cases h : a = b
  · simp only [h, true_and, if_true]
    by_cases k1 : k = "replica"
    · subst k1; simp
    · have e1 : ¬ "replica" = k := fun hh => k1 hh.symm
      by_cases k2 : k = "primary"
      · subst k2; simp
      · have e2 : ¬ "primary" = k := fun hh => k2 hh.symm
        by_cases k3 : k = "name"
        · subst k3; simp
        · have e3 : ¬ "name" = k := fun hh => k3 hh.symm
          simp [k1, k2, k3, e1, e2, e3]
  · simp [h]

/-- What the map at address `b` reads at key `k` after the six writes: the role value when
`b` is one of the two maps written and `k` a role key, and what it read before otherwise. -/
theorem get_entriesAt_promoted (d : Deployment) (s : String) (a1 a2 b : MapRef) (k : String) :
    Assoc.get ((promoted d s a1 a2).entriesAt b) k
      = if b = a1 ∨ b = a2 then (roleValue s k).or (Assoc.get (d.entriesAt b) k)
        else Assoc.get (d.entriesAt b) k := by
  have hp : promoted d s a1 a2
      = ((((((d.assignAt a1 "name" s).assignAt a1 "primary" "true").assignAt a1 "replica"
          "false").assignAt a2 "name" s).assignAt a2 "primary" "true").assignAt a2 "replica"
          "false") := rfl
  rw [hp, get_entriesAt_roleWrites, get_entriesAt_roleWrites]
  by_cases h1 : a1 = b <;> by_cases h2 : a2 = b
  · have e1 : b = a1 := h1.symm
    simp only [h1, h2, if_true, true_or]
    simp only [roleValue_or]
    by_cases k1 : k = "replica"
    · simp [k1]
    · by_cases k2 : k = "primary"
      · simp [k1, k2]
      · by_cases k3 : k = "name"
        · simp [k1, k2, k3]
        · simp [k1, k2, k3]
  · have e1 : b = a1 := h1.symm
    have e2 : ¬ b = a2 := fun hh => h2 hh.symm
    simp [h1, h2, e2]
  · have e1 : ¬ b = a1 := fun hh => h1 hh.symm
    have e2 : b = a2 := h2.symm
    simp [h1, h2, e1]
  · have e1 : ¬ b = a1 := fun hh => h1 hh.symm
    have e2 : ¬ b = a2 := fun hh => h2 hh.symm
    simp [h1, h2, e1, e2]

theorem entriesAt_promoted_of_ne (d : Deployment) (s : String) (a1 a2 b : MapRef)
    (h1 : b ≠ a1) (h2 : b ≠ a2) : (promoted d s a1 a2).entriesAt b = d.entriesAt b := by
  have e1 : ¬ a1 = b := fun h => h1 h.symm
  have e2 : ¬ a2 = b := fun h => h2 h.symm
  unfold promoted
  simp only [entriesAt_assignAt, e1, e2, if_false]

theorem writeRoleLabels_eq (d : Deployment) (newname : String) :
    writeRoleLabels d newname =
      match d.Spec.Selector with
      | none => .error .nilPointerDereference
      | some sel =>
        match sel.MatchLabels with
        | none => .error .assignmentToNilMap
        | some a1 =>
          match d.Spec.Template.ObjectMeta.Labels with
          | none => .error .assignmentToNilMap
          | some a2 => .ok (promoted d newname a1 a2) := by
  obtain ⟨meta, ⟨rep, selo, ⟨⟨tn, tns, tl, ta⟩, tspec⟩, strat⟩, status, maps⟩ := d
  cases selo with
  | none => rfl
  | some sel =>
    obtain ⟨ml⟩ := sel
    cases ml with
    | none => rfl
    | some a1 =>
      cases tl with
      | none => rfl
      | some a2 => rfl

theorem writeLabel_eq (d : Deployment) (key value : String) :
    writeLabel d key value =
      match d.ObjectMeta.Labels with
      | none => .error .assignmentToNilMap
      | some a => .ok (d.assignAt a key value) := by
  unfold writeLabel mapAssign
  cases d.ObjectMeta.Labels <;> rfl

theorem mergePatchDeployment_ok {σ : Type} (Patch : PatchFn σ) (d : Deployment)
    (newname namespace_ : String) (s : σ) (d2 : Deployment)
    (h : writeRoleLabels d newname = .ok d2) :
    ∃ logs, MergePatchDeployment Patch d newname namespace_ s =
      .returned ⟨d2,
        (Patch namespace_ d2.Name .MergePatchType (.mergePatch (mergeDiff d.toDoc d2.toDoc)) s).err,
        (Patch namespace_ d2.Name .MergePatchType (.mergePatch (mergeDiff d.toDoc d2.toDoc)) s).state,
        logs⟩ := by
  simp only [MergePatchDeployment, jsonMarshal, CreateMergePatch, h]
  exact ⟨_, rfl⟩

theorem mergePatchDeployment_panic {σ : Type} (Patch : PatchFn σ) (d : Deployment)
    (newname namespace_ : String) (s : σ) (p : GoPanic)
    (h : writeRoleLabels d newname = .error p) :
    MergePatchDeployment Patch d newname namespace_ s = .panicked p s := by
  simp only [MergePatchDeployment, jsonMarshal, h]

theorem addLabelToDeployment_ok {σ : Type} (Patch : PatchFn σ) (d : Deployment)
    (key value namespace_ : String) (s : σ) (d2 : Deployment)
    (h : writeLabel d key value = .ok d2) :
    ∃ logs, AddLabelToDeployment Patch d key value namespace_ s =
      .returned ⟨d2,
        (Patch namespace_ d2.Name .MergePatchType (.mergePatch (mergeDiff d.toDoc d2.toDoc)) s).err,
        (Patch namespace_ d2.Name .MergePatchType (.mergePatch (mergeDiff d.toDoc d2.toDoc)) s).state,
        logs⟩ := by
  simp only [AddLabelToDeployment, jsonMarshal, CreateMergePatch, h]
  exact ⟨_, rfl⟩

theorem addLabelToDeployment_panic {σ : Type} (Patch : PatchFn σ) (d : Deployment)
    (key value namespace_ : String) (s : σ) (p : GoPanic)
    (h : writeLabel d key value = .error p) :
    AddLabelToDeployment Patch d key value namespace_ s = .panicked p s := by
  simp only [AddLabelToDeployment, jsonMarshal, h]

/-- C16: the label writes are unguarded.  With the selector, its match-label map and the
pod-template label map present, `MergePatchDeployment` returns after making its `Patch`
call; with the metadata label map present, so does `AddLabelToDeployment`.  With the
selector or one of the maps absent the call panics with the client state untouched, so no
patch has been sent. -/
theorem label_writes_unguarded (σ : Type) (Patch : PatchFn σ) (d : Deployment)
    (newname key value namespace_ : String) (s : σ) :
    (∀ sel m1 m2, d.Spec.Selector = some sel → sel.MatchLabels = some m1 →
        d.Spec.Template.ObjectMeta.Labels = some m2 →
        ∃ out, MergePatchDeployment Patch d newname namespace_ s = .returned out
          ∧ out.state = (Patch namespace_ d.Name .MergePatchType
              (.mergePatch (mergeDiff d.toDoc out.origDeployment.toDoc)) s).state)
      ∧ (∀ m, d.ObjectMeta.Labels = some m →
        ∃ out, AddLabelToDeployment Patch d key value namespace_ s = .returned out
          ∧ out.state = (Patch namespace_ d.Name .MergePatchType
              (.mergePatch (mergeDiff d.toDoc out.origDeployment.toDoc)) s).state)
      ∧ (d.Spec.Selector = none →
          MergePatchDeployment Patch d newname namespace_ s
            = .panicked .nilPointerDereference s)
      ∧ ((∃ sel, d.Spec.Selector = some sel ∧ sel.MatchLabels = none) →
          MergePatchDeployment Patch d newname namespace_ s
            = .panicked .assignmentToNilMap s)
      ∧ ((∃ sel m1, d.Spec.Selector = some sel ∧ sel.MatchLabels = some m1
            ∧ d.Spec.Template.ObjectMeta.Labels = none) →
          MergePatchDeployment Patch d newname namespace_ s
            = .panicked .assignmentToNilMap s)
      ∧ (d.ObjectMeta.Labels = none →
          AddLabelToDeployment Patch d key value namespace_ s
            = .panicked .assignmentToNilMap s) := by
  refine ⟨?_, ?_, ?_, ?_, ?_, ?_⟩
  · intro sel m1 m2 hsel hml htl
    have hw : writeRoleLabels d newname = .ok (promoted d newname m1 m2) := by
      rw [writeRoleLabels_eq]; simp [hsel, hml, htl]
    obtain ⟨logs, h⟩ := mergePatchDeployment_ok Patch d newname namespace_ s _ hw
    exact ⟨_, h, rfl⟩
  · intro m hm
    have hw : writeLabel d key value = .ok (d.assignAt m key value) := by
      rw [writeLabel_eq]; simp [hm]
    obtain ⟨logs, h⟩ := addLabelToDeployment_ok Patch d key value namespace_ s _ hw
    exact ⟨_, h, rfl⟩
  · intro hsel
    apply mergePatchDeployment_panic
    rw [writeRoleLabels_eq]; simp [hsel]
  · rintro ⟨sel, hsel, hml⟩
    apply mergePatchDeployment_panic
    rw [writeRoleLabels_eq]; simp [hsel, hml]
  · rintro ⟨sel, m1, hsel, hml, htl⟩
    apply mergePatchDeployment_panic
    rw [writeRoleLabels_eq]; simp [hsel, hml, htl]
  · intro hm
    apply addLabelToDeployment_panic
    rw [writeLabel_eq]; simp [hm]

/-- C16 on a definition whose selector is nil: `MergePatchDeployment` panics on the first
label write and the recording client has been sent nothing. -/
theorem label_writes_unguarded_witness :
    MergePatchDeployment recordPatch noSelectorDeployment "hippo" "pgouser1" []
        = .panicked .nilPointerDereference []
      ∧ AddLabelToDeployment recordPatch noSelectorDeployment "vendor" "crunchydata" "pgouser1" []
        = .panicked .assignmentToNilMap [] :=
  ⟨(label_writes_unguarded (List PatchCall) recordPatch noSelectorDeployment "hippo" "vendor"
      "crunchydata" "pgouser1" []).2.2.1 rfl,
   (label_writes_unguarded (List PatchCall) recordPatch noSelectorDeployment "hippo" "vendor"
      "crunchydata" "pgouser1" []).2.2.2.2.2 rfl⟩

theorem writeRoleLabels_ok_inv (d : Deployment) (s : String) (d2 : Deployment)
    (h : writeRoleLabels d s = .ok d2) :
    ∃ sel m1 m2, d.Spec.Selector = some sel ∧ sel.MatchLabels = some m1
      ∧ d.Spec.Template.ObjectMeta.Labels = some m2 ∧ d2 = promoted d s m1 m2 := by
  rw [writeRoleLabels_eq] at h
  cases hsel : d.Spec.Selector with
  | none => simp [hsel] at h
  | some sel =>
    cases hml : sel.MatchLabels with
    | none => simp [hsel, hml] at h
    | some m1 =>
      cases htl : d.Spec.Template.ObjectMeta.Labels with
      | none => simp [hsel, hml, htl] at h
      | some m2 =>
        simp [hsel, hml, htl] at h
        exact ⟨sel, m1, m2, rfl, hml, rfl, h.symm⟩

theorem mergePatchDeployment_returned_inv {σ : Type} (Patch : PatchFn σ) (d : Deployment)
    (newname namespace_ : String) (s : σ) (out : Patched σ)
    (h : MergePatchDeployment Patch d newname namespace_ s = .returned out) :
    writeRoleLabels d newname = .ok out.origDeployment
      ∧ out.err = (Patch namespace_ d.Name .MergePatchType
          (.mergePatch (mergeDiff d.toDoc out.origDeployment.toDoc)) s).err
      ∧ out.state = (Patch namespace_ d.Name .MergePatchType
          (.mergePatch (mergeDiff d.toDoc out.origDeployment.toDoc)) s).state := by
  cases hw : writeRoleLabels d newname with
  | error p =>
    rw [mergePatchDeployment_panic Patch d newname namespace_ s p hw] at h
    exact Ended.noConfusion h
  | ok d2 =>
    obtain ⟨logs, h2⟩ := mergePatchDeployment_ok Patch d newname namespace_ s d2 hw
    rw [h2] at h
    injection h with h
    subst h
    obtain ⟨sel, m1, m2, _, _, _, hd2⟩ := writeRoleLabels_ok_inv d newname d2 hw
    have hname : d2.Name = d.Name := by rw [hd2]; rfl
    simp [hname]

/-! ### The returned errors -/

/-- C10: each primitive returns exactly the error of its client call, nil when the call
succeeded: `DeleteDeployment`, `CreateDeployment`, `GetDeployment` (third result),
`GetDeployments` (second result), `PatchDeploymentStrategicMerge`, `PatchReplicas`,
`UpdateDeployment`, `ScaleDeployment`, and, whenever they return, `MergePatchDeployment`
and `AddLabelToDeployment`. -/
theorem primitives_return_client_error (σ : Type) (Delete : DeleteFn σ) (Create : CreateFn σ)
    (Get : GetFn σ) (List_ : ListFn σ) (Patch : PatchFn σ) (Update : UpdateFn σ) (s : σ) :
    (∀ name namespace_,
        (DeleteDeployment Delete name namespace_ s).ret
          = (Delete namespace_ name ⟨some DeletePropagationForeground⟩ s).err)
      ∧ (∀ d namespace_,
        (CreateDeployment Create d namespace_ s).ret = (Create namespace_ d s).err)
      ∧ (∀ name namespace_,
        (GetDeployment Get name namespace_ s).ret.2.2 = (Get namespace_ name s).err)
      ∧ (∀ selector namespace_,
        (GetDeployments List_ selector namespace_ s).ret.2
          = (List_ namespace_ ⟨selector⟩ s).err)
      ∧ (∀ name namespace_ patch,
        (PatchDeploymentStrategicMerge Patch name namespace_ patch s).ret
          = (Patch namespace_ name .StrategicMergePatchType (.text patch) s).err)
      ∧ (∀ name namespace_ jsonpath patchvalue,
        (PatchReplicas Patch name namespace_ jsonpath patchvalue s).ret
          = (Patch namespace_ name .JSONPatchType
              (.jsonPatch [⟨"replace", jsonpath, patchvalue⟩]) s).err)
      ∧ (∀ d newname namespace_ out,
        MergePatchDeployment Patch d newname namespace_ s = .returned out →
          out.err = (Patch namespace_ d.Name .MergePatchType
            (.mergePatch (mergeDiff d.toDoc out.origDeployment.toDoc)) s).err)
      ∧ (∀ d key value namespace_ out,
        AddLabelToDeployment Patch d key value namespace_ s = .returned out →
          out.err = (Patch namespace_ d.Name .MergePatchType
            (.mergePatch (mergeDiff d.toDoc out.origDeployment.toDoc)) s).err)
      ∧ (∀ d, (UpdateDeployment Update d s).ret = (Update d.Namespace d s).err)
      ∧ (∀ d replicas,
        (ScaleDeployment Update d replicas s).ret
          = (Update d.Namespace (scaled d replicas) s).err) := by
  refine ⟨?_, ?_, ?_, ?_, ?_, ?_, ?_, ?_, ?_, ?_⟩
  · intro name namespace_
    rfl
  · intro d namespace_
    unfold CreateDeployment
    generalize Create namespace_ d s = r
    obtain ⟨obj, err, st⟩ := r
    cases err <;> rfl
  · intro name namespace_
    unfold GetDeployment
    generalize Get namespace_ name s = r
    obtain ⟨obj, err, st⟩ := r
    cases err with
    | none => simp [IsNotFound]
    | some err =>
      by_cases hn : err.notFound = true
      · simp [IsNotFound, hn]
      · simp [IsNotFound, hn]
  · intro selector namespace_
    rfl
  · intro name namespace_ patch
    unfold PatchDeploymentStrategicMerge patchDeployment
    generalize Patch namespace_ name .StrategicMergePatchType (.text patch) s = r
    obtain ⟨obj, err, st⟩ := r
    cases err <;> rfl
  · intro name namespace_ jsonpath patchvalue
    rfl
  · intro d newname namespace_ out h
    cases hw : writeRoleLabels d newname with
    | error p =>
      rw [mergePatchDeployment_panic Patch d newname namespace_ s p hw] at h
      exact Ended.noConfusion h
    | ok d2 =>
      obtain ⟨logs, h2⟩ := mergePatchDeployment_ok Patch d newname namespace_ s d2 hw
      rw [h2] at h
      injection h with h
      subst h
      have hname : d2.Name = d.Name := by
        rw [writeRoleLabels_eq] at hw
        cases hsel : d.Spec.Selector with
        | none => simp [hsel] at hw
        | some sel =>
          cases hml : sel.MatchLabels with
          | none => simp [hsel, hml] at hw
          | some m1 =>
            cases htl : d.Spec.Template.ObjectMeta.Labels with
            | none => simp [hsel, hml, htl] at hw
            | some m2 =>
              simp [hsel, hml, htl] at hw
              rw [← hw]; rfl
      simp only [hname]
  · intro d key value namespace_ out h
    cases hw : writeLabel d key value with
    | error p =>
      rw [addLabelToDeployment_panic Patch d key value namespace_ s p hw] at h
      exact Ended.noConfusion h
    | ok d2 =>
      obtain ⟨logs, h2⟩ := addLabelToDeployment_ok Patch d key value namespace_ s d2 hw
      rw [h2] at h
      injection h with h
      subst h
      have hname : d2.Name = d.Name := by
        rw [writeLabel_eq] at hw
        cases hm : d.ObjectMeta.Labels with
        | none => simp [hm] at hw
        | some m =>
          simp [hm] at hw
          rw [← hw]; rfl
      simp only [hname]
  · intro d
    unfold UpdateDeployment
    generalize Update d.Namespace d s = r
    obtain ⟨obj, err, st⟩ := r
    cases err <;> rfl
  · intro d replicas
    unfold ScaleDeployment UpdateDeployment
    have : (scaled d replicas).Namespace = d.Namespace := rfl
    simp only [this]
    generalize Update d.Namespace (scaled d replicas) s = r
    obtain ⟨obj, err, st⟩ := r
    cases err <;> rfl

/-! ### The role labels after the writes -/

theorem lookup_read (d : Deployment) (m : Option MapRef) (k : String) :
    lookup (d.read m) k = m.bind (fun a => Assoc.get (d.entriesAt a) k) := by
  cases m <;> rfl

/-- What a map-typed field reads at key `k` after the six writes. -/
theorem lookup_read_promoted (d : Deployment) (s : String) (a1 a2 : MapRef)
    (m : Option MapRef) (k : String) :
    lookup ((promoted d s a1 a2).read m) k
      = if m = some a1 ∨ m = some a2 then (roleValue s k).or (lookup (d.read m) k)
        else lookup (d.read m) k := by
  cases m with
  | none => simp [lookup_read]
  | some b =>
    simp only [lookup_read, Option.some_bind, get_entriesAt_promoted, Option.some.injEq]

theorem roleValue_of_not_role (s k : String) (h1 : k ≠ "name") (h2 : k ≠ "primary")
    (h3 : k ≠ "replica") : roleValue s k = none := by
  simp [roleValue, h1, h2, h3]

/-- C5: when the selector, its match-label map and the pod-template label map are present,
the definition `MergePatchDeployment` leaves in memory has name = s, primary = "true" and
replica = "false" in both maps and every other key of the two maps reads as it did in the
original definition, whether or not the two are one map.  Outside the two maps nothing is
written: the scalar fields are as before, every field holds the map it held, a map-typed
field that is not one of the two maps reads as before, and one that is the same Go map as
one of the two reads the role labels as well. -/
theorem mergePatchDeployment_writes_role_labels (d : Deployment) (s : String)
    (sel : LabelSelector) (a1 a2 : MapRef)
    (hsel : d.Spec.Selector = some sel) (hml : sel.MatchLabels = some a1)
    (htl : d.Spec.Template.ObjectMeta.Labels = some a2) :
    ∃ d2, writeRoleLabels d s = .ok d2
      ∧ (∀ (σ : Type) (Patch : PatchFn σ) (namespace_ : String) (st : σ),
          ∃ out, MergePatchDeployment Patch d s namespace_ st = .returned out
            ∧ out.origDeployment = d2)
      ∧ lookup d2.matchLabels "name" = some s
      ∧ lookup d2.matchLabels "primary" = some "true"
      ∧ lookup d2.matchLabels "replica" = some "false"
      ∧ lookup d2.templateLabels "name" = some s
      ∧ lookup d2.templateLabels "primary" = some "true"
      ∧ lookup d2.templateLabels "replica" = some "false"
      ∧ (∀ k, k ≠ "name" → k ≠ "primary" → k ≠ "replica" →
          lookup d2.matchLabels k = lookup d.matchLabels k
            ∧ lookup d2.templateLabels k = lookup d.templateLabels k)
      ∧ (d2.Name = d.Name ∧ d2.Namespace = d.Namespace ∧ d2.Status = d.Status
          ∧ d2.Spec.Replicas = d.Spec.Replicas ∧ d2.Spec.Strategy = d.Spec.Strategy
          ∧ d2.Spec.Template.Spec = d.Spec.Template.Spec
          ∧ d2.Spec.Template.ObjectMeta.Name = d.Spec.Template.ObjectMeta.Name
          ∧ d2.Spec.Template.ObjectMeta.Namespace = d.Spec.Template.ObjectMeta.Namespace)
      ∧ (d2.otherMaps = d.otherMaps ∧ d2.matchLabelsRef = some a1
          ∧ d2.Spec.Template.ObjectMeta.Labels = some a2)
      ∧ (∀ m, m ≠ some a1 → m ≠ some a2 → d2.read m = d.read m)
      ∧ (∀ m k, (m = some a1 ∨ m = some a2) →
          lookup (d2.read m) k = (roleValue s k).or (lookup (d.read m) k)) := by
  have hw : writeRoleLabels d s = .ok (promoted d s a1 a2) := by
    rw [writeRoleLabels_eq]; simp [hsel, hml, htl]
  have href : (promoted d s a1 a2).matchLabelsRef = some a1 := by
    show d.matchLabelsRef = some a1
    simp [Deployment.matchLabelsRef, hsel, hml]
  have hm : (promoted d s a1 a2).matchLabels = (promoted d s a1 a2).read (some a1) := by
    simp [Deployment.matchLabels, href]
  have ht : (promoted d s a1 a2).templateLabels = (promoted d s a1 a2).read (some a2) := by
    have : (promoted d s a1 a2).Spec.Template.ObjectMeta.Labels = some a2 := htl
    simp [Deployment.templateLabels, this]
  have hm0 : d.matchLabels = d.read (some a1) := by
    simp [Deployment.matchLabels, Deployment.matchLabelsRef, hsel, hml]
  have ht0 : d.templateLabels = d.read (some a2) := by
    simp [Deployment.templateLabels, htl]
  refine ⟨promoted d s a1 a2, hw, ?_, ?_, ?_, ?_, ?_, ?_, ?_, ?_,
    ⟨rfl, rfl, rfl, rfl, rfl, rfl, rfl, rfl⟩, ⟨rfl, href, htl⟩, ?_, ?_⟩
  · intro σ Patch namespace_ st
    obtain ⟨logs, h⟩ := mergePatchDeployment_ok Patch d s namespace_ st _ hw
    exact ⟨_, h, rfl⟩
  · rw [hm, lookup_read_promoted]; simp [roleValue]
  · rw [hm, lookup_read_promoted]; simp [roleValue]
  · rw [hm, lookup_read_promoted]; simp [roleValue]
  · rw [ht, lookup_read_promoted]; simp [roleValue]
  · rw [ht, lookup_read_promoted]; simp [roleValue]
  · rw [ht, lookup_read_promoted]; simp [roleValue]
  · intro k h1 h2 h3
    rw [hm, ht, hm0, ht0, lookup_read_promoted, lookup_read_promoted,
      roleValue_of_not_role s k h1 h2 h3]
    simp
  · intro m h1 h2
    cases m with
    | none => rfl
    | some b =>
      have e1 : b ≠ a1 := fun hh => h1 (by rw [hh])
      have e2 : b ≠ a2 := fun hh => h2 (by rw [hh])
      simp [Deployment.read, entriesAt_promoted_of_ne d s a1 a2 b e1 e2]
  · intro m k hmm
    rw [lookup_read_promoted, if_pos hmm]

/-- C5 at `replicaDeployment` promoted under the name `hippo`, whose metadata labels are a
map of their own and read as before, and at `sharedMapDeployment`, whose one label map is
its metadata labels too, which then read primary = "true". -/
theorem mergePatchDeployment_writes_role_labels_witness :
    (∃ d2, writeRoleLabels replicaDeployment "hippo" = .ok d2
      ∧ lookup d2.matchLabels "name" = some "hippo"
      ∧ lookup d2.matchLabels "primary" = some "true"
      ∧ lookup d2.matchLabels "replica" = some "false"
      ∧ lookup d2.matchLabels "pg-cluster" = some "hippo"
      ∧ d2.otherMaps.map (fun m => lookup (d2.read m) "primary") = [none, none, none])
    ∧ (∃ d2, writeRoleLabels sharedMapDeployment "hippo" = .ok d2
      ∧ lookup d2.templateLabels "primary" = some "true"
      ∧ lookup d2.templateLabels "pg-cluster" = some "hippo"
      ∧ d2.otherMaps.map (fun m => lookup (d2.read m) "primary")
        = [some "true", none, none]) := by
  constructor
  · obtain ⟨d2, hw, _, h1, h2, h3, _, _, _, h7, _, ⟨h9, _, _⟩, h10, _⟩ :=
      mergePatchDeployment_writes_role_labels replicaDeployment "hippo" ⟨some 1⟩ 1 2
        rfl rfl rfl
    refine ⟨d2, hw, h1, h2, h3, ?_, ?_⟩
    · rw [(h7 "pg-cluster" (by decide) (by decide) (by decide)).1]
      decide
    · have e : replicaDeployment.otherMaps = [some 0, none, none] := rfl
      rw [h9, e]
      simp only [List.map]
      rw [h10 (some 0) (by decide) (by decide), h10 none (by decide) (by decide)]
      decide
  · obtain ⟨d2, hw, _, _, _, _, _, h5, _, h7, _, ⟨h9, _, _⟩, h10, h11⟩ :=
      mergePatchDeployment_writes_role_labels sharedMapDeployment "hippo" ⟨some 0⟩ 0 0
        rfl rfl rfl
    refine ⟨d2, hw, h5, ?_, ?_⟩
    · rw [(h7 "pg-cluster" (by decide) (by decide) (by decide)).2]
      decide
    · have e : sharedMapDeployment.otherMaps = [some 0, none, none] := rfl
      rw [h9, e]
      simp only [List.map]
      rw [h11 (some 0) "primary" (Or.inl rfl), h10 none (by decide) (by decide)]
      decide

/-! ### The patch of `MergePatchDeployment` -/

theorem bind_promoted_other (d : Deployment) (s : String) (a1 a2 : MapRef)
    (pre : Path) (m : Option MapRef) (p : Path) (h1 : m ≠ some a1) (h2 : m ≠ some a2) :
    (leafUnder pre p).bind
        (fun k => (lookup ((promoted d s a1 a2).read m) k).map JLeaf.str)
      = (leafUnder pre p).bind (fun k => (lookup (d.read m) k).map JLeaf.str) := by
  have : ¬ (m = some a1 ∨ m = some a2) := fun h => h.elim h1 h2
  simp only [lookup_read_promoted, this, if_false]

theorem bind_promoted_role (d : Deployment) (s : String) (a1 a2 : MapRef)
    (pre : Path) (m : Option MapRef) (p : Path)
    (hp : p ≠ pre ++ ["name"] ∧ p ≠ pre ++ ["primary"] ∧ p ≠ pre ++ ["replica"]) :
    (leafUnder pre p).bind
        (fun k => (lookup ((promoted d s a1 a2).read m) k).map JLeaf.str)
      = (leafUnder pre p).bind (fun k => (lookup (d.read m) k).map JLeaf.str) := by
  cases hl : leafUnder pre p with
  | none => rfl
  | some k =>
    have hpk : p = pre ++ [k] := (leafUnder_eq_some pre p k).mp hl
    have h1 : k ≠ "name" := fun h => hp.1 (by rw [hpk, h])
    have h2 : k ≠ "primary" := fun h => hp.2.1 (by rw [hpk, h])
    have h3 : k ≠ "replica" := fun h => hp.2.2 (by rw [hpk, h])
    simp only [Option.some_bind, lookup_read_promoted, roleValue_of_not_role s k h1 h2 h3,
      Option.none_or, ite_self]

theorem unshared_ne (d : Deployment) (sel : LabelSelector) (a1 a2 : MapRef)
    (hsel : d.Spec.Selector = some sel) (hml : sel.MatchLabels = some a1)
    (htl : d.Spec.Template.ObjectMeta.Labels = some a2) (hun : d.RoleMapsUnshared)
    (m : Option MapRef) (hm : m ∈ d.otherMaps) : m ≠ some a1 ∧ m ≠ some a2 := by
  have href : d.matchLabelsRef = some a1 := by
    simp [Deployment.matchLabelsRef, hsel, hml]
  rcases hun m hm with h | ⟨h1, h2⟩
  · subst h; exact ⟨by simp, by simp⟩
  · rw [href] at h1
    rw [htl] at h2
    exact ⟨h1, h2⟩

/-- Outside the six role-label leaves the serialized definition is the same before and
after the writes, when no other map field shares a map with the two written. -/
theorem get_toDoc_promoted (d : Deployment) (s : String) (sel : LabelSelector)
    (a1 a2 : MapRef) (hsel : d.Spec.Selector = some sel) (hml : sel.MatchLabels = some a1)
    (htl : d.Spec.Template.ObjectMeta.Labels = some a2) (hun : d.RoleMapsUnshared)
    (p : Path) (hp : p ∉ roleLabelPaths) :
    Assoc.get (promoted d s a1 a2).toDoc p = Assoc.get d.toDoc p := by
  simp only [roleLabelPaths, selectorLabel, templateLabel, List.mem_cons, List.mem_singleton,
    List.not_mem_nil, or_false, not_or] at hp
  obtain ⟨hp1, hp2, hp3, hp4, hp5, hp6⟩ := hp
  have u1 := unshared_ne d sel a1 a2 hsel hml htl hun d.ObjectMeta.Labels
    (by simp [Deployment.otherMaps])
  have u2 := unshared_ne d sel a1 a2 hsel hml htl hun d.ObjectMeta.Annotations
    (by simp [Deployment.otherMaps])
  have u3 := unshared_ne d sel a1 a2 hsel hml htl hun d.Spec.Template.ObjectMeta.Annotations
    (by simp [Deployment.otherMaps])
  have e1 := bind_promoted_other d s a1 a2 ["metadata", "labels"] d.ObjectMeta.Labels p
    u1.1 u1.2
  have e2 := bind_promoted_other d s a1 a2 ["metadata", "annotations"]
    d.ObjectMeta.Annotations p u2.1 u2.2
  have e3 := bind_promoted_role d s a1 a2 ["spec", "selector", "matchLabels"] (some a1) p
    ⟨hp1, hp2, hp3⟩
  have e4 := bind_promoted_role d s a1 a2 ["spec", "template", "metadata", "labels"]
    (some a2) p ⟨hp4, hp5, hp6⟩
  have e5 := bind_promoted_other d s a1 a2 ["spec", "template", "metadata", "annotations"]
    d.Spec.Template.ObjectMeta.Annotations p u3.1 u3.2
  obtain ⟨ml⟩ := sel
  simp only at hml
  subst hml
  have hf := promoted_fields d s a1 a2
  unfold Deployment.toDoc
  rw [hf.1, hf.2.1, hf.2.2]
  simp only [metaFields, Assoc.get_append, get_mapField, hsel, htl, List.cons_append,
    List.nil_append]
  simp only [List.cons_append, List.nil_append] at e1 e2 e3 e4 e5
  rw [e1, e2, e3, e4, e5]

/-- Outside the role keys of the five map-typed fields the serialized definition is the same
before and after the writes, whatever maps the fields share. -/
theorem get_toDoc_promoted_general (d : Deployment) (s : String) (sel : LabelSelector)
    (a1 a2 : MapRef) (hsel : d.Spec.Selector = some sel) (hml : sel.MatchLabels = some a1)
    (htl : d.Spec.Template.ObjectMeta.Labels = some a2)
    (p : Path) (hp : p ∉ roleKeyedPaths) :
    Assoc.get (promoted d s a1 a2).toDoc p = Assoc.get d.toDoc p := by
  simp only [roleKeyedPaths, List.flatMap_cons, List.flatMap_nil, List.cons_append,
    List.nil_append, List.append_nil, List.mem_cons, List.mem_singleton, List.not_mem_nil,
    or_false, not_or] at hp
  obtain ⟨q1, q2, q3, q4, q5, q6, q7, q8, q9, q10, q11, q12, q13, q14, q15⟩ := hp
  have e1 := bind_promoted_role d s a1 a2 ["metadata", "labels"] d.ObjectMeta.Labels p
    ⟨q1, q2, q3⟩
  have e2 := bind_promoted_role d s a1 a2 ["metadata", "annotations"]
    d.ObjectMeta.Annotations p ⟨q4, q5, q6⟩
  have e3 := bind_promoted_role d s a1 a2 ["spec", "selector", "matchLabels"] (some a1) p
    ⟨q7, q8, q9⟩
  have e4 := bind_promoted_role d s a1 a2 ["spec", "template", "metadata", "labels"]
    (some a2) p ⟨q10, q11, q12⟩
  have e5 := bind_promoted_role d s a1 a2 ["spec", "template", "metadata", "annotations"]
    d.Spec.Template.ObjectMeta.Annotations p ⟨q13, q14, q15⟩
  obtain ⟨ml⟩ := sel
  simp only at hml
  subst hml
  have hf := promoted_fields d s a1 a2
  unfold Deployment.toDoc
  rw [hf.1, hf.2.1, hf.2.2]
  simp only [metaFields, Assoc.get_append, get_mapField, hsel, htl, List.cons_append,
    List.nil_append]
  simp only [List.cons_append, List.nil_append] at e1 e2 e3 e4 e5
  rw [e1, e2, e3, e4, e5]

/-- C6, as the code has it: the one request `MergePatchDeployment` sends is a merge patch,
the difference of the serialized original and mutated definitions.  It names no leaf but
the keys name, primary and replica of map-typed fields; and when no other map-typed field
is the same Go map as the selector match-labels or the pod-template labels, it names
role-label leaves only (under those two), so that applied to any stored definition it
leaves every other leaf as stored. -/
theorem merge_patch_names_role_labels_only (d : Deployment) (newname namespace_ : String)
    (out : Patched (List PatchCall))
    (h : MergePatchDeployment recordPatch d newname namespace_ [] = .returned out) :
    ∃ patch, out.state = [⟨namespace_, d.Name, .MergePatchType, .mergePatch patch⟩]
      ∧ patch = mergeDiff d.toDoc out.origDeployment.toDoc
      ∧ (∀ p, p ∈ Assoc.keys patch → p ∈ roleKeyedPaths)
      ∧ (d.RoleMapsUnshared →
          (∀ p, p ∈ Assoc.keys patch → p ∈ roleLabelPaths)
            ∧ (∀ (stored : Doc) (p : Path), p ∉ roleLabelPaths →
                Assoc.get (applyMergePatch stored patch) p = Assoc.get stored p)) := by
  obtain ⟨hw, _, hst⟩ := mergePatchDeployment_returned_inv recordPatch d newname namespace_ [] out h
  obtain ⟨sel, a1, a2, hsel, hml, htl, hd2⟩ := writeRoleLabels_ok_inv d newname _ hw
  have hgen : ∀ p, p ∈ Assoc.keys (mergeDiff d.toDoc out.origDeployment.toDoc) →
      p ∈ roleKeyedPaths := by
    intro p hp
    by_contra hn
    have := get_toDoc_promoted_general d newname sel a1 a2 hsel hml htl p hn
    rw [← hd2] at this
    exact mem_keys_mergeDiff _ _ p hp this.symm
  refine ⟨mergeDiff d.toDoc out.origDeployment.toDoc, ?_, rfl, hgen, ?_⟩
  · rw [hst]; rfl
  · intro hun
    have hkeys : ∀ p, p ∈ Assoc.keys (mergeDiff d.toDoc out.origDeployment.toDoc) →
        p ∈ roleLabelPaths := by
      intro p hp
      by_contra hn
      have := get_toDoc_promoted d newname sel a1 a2 hsel hml htl hun p hn
      rw [← hd2] at this
      exact mem_keys_mergeDiff _ _ p hp this.symm
    refine ⟨hkeys, ?_⟩
    intro stored p hp
    apply get_applyMergePatch_of_not_mem
    intro hm
    exact hp (hkeys p hm)

/-- C6, as amended, at `replicaDeployment`, whose label maps are three maps: the one request
sent and the leaves its patch names. -/
theorem merge_patch_names_role_labels_only_witness :
    replicaDeployment.RoleMapsUnshared
      ∧ ∃ out patch, MergePatchDeployment recordPatch replicaDeployment "hippo" "pgouser1" []
          = .returned out
        ∧ out.state = [⟨"pgouser1", "hippo-rep1", .MergePatchType, .mergePatch patch⟩]
        ∧ (∀ p, p ∈ Assoc.keys patch → p ∈ roleLabelPaths) := by
  refine ⟨by decide, ?_⟩
  obtain ⟨logs, h⟩ := mergePatchDeployment_ok recordPatch replicaDeployment "hippo"
    "pgouser1" [] _
    (rfl : writeRoleLabels replicaDeployment "hippo"
      = .ok (promoted replicaDeployment "hippo" 1 2))
  obtain ⟨patch, hst, _, _, hk⟩ :=
    merge_patch_names_role_labels_only replicaDeployment "hippo" "pgouser1" _ h
  exact ⟨_, patch, h, hst, (hk (by decide)).1⟩

/-- C6, as stated, fails: for a definition whose metadata labels, selector match-labels and
pod-template labels are one Go map, the writes of lines 172 to 178 change the metadata
labels too, and the patch sent names `metadata.labels.name`, `.primary` and `.replica`,
which are not role-label fields of the selector or the pod template. -/
theorem merge_patch_names_metadata_labels :
    patchedLeaves
        (MergePatchDeployment recordPatch sharedMapDeployment "hippo" "pgouser1" []).state
      = [["metadata", "labels", "name"], ["metadata", "labels", "primary"],
         ["metadata", "labels", "replica"],
         ["spec", "selector", "matchLabels", "name"],
         ["spec", "selector", "matchLabels", "primary"],
         ["spec", "selector", "matchLabels", "replica"],
         ["spec", "template", "metadata", "labels", "name"],
         ["spec", "template", "metadata", "labels", "primary"],
         ["spec", "template", "metadata", "labels", "replica"]]
      ∧ ["metadata", "labels", "primary"] ∉ roleLabelPaths := by
  decide

/-! ### Promotion against the store -/

theorem get_toDoc_selectorLabel (d : Deployment) (k : String) :
    Assoc.get d.toDoc (selectorLabel k) = (lookup d.matchLabels k).map JLeaf.str := by
  obtain ⟨meta, ⟨rep, selo, ⟨tmeta, tspec⟩, strat⟩, status, maps⟩ := d
  cases selo <;> cases rep <;>
    simp [Deployment.toDoc, Deployment.matchLabels, Deployment.matchLabelsRef, selectorLabel,
      metaFields, Assoc.get_append, get_strField, get_mapField, leafUnder, lookup, Assoc.get,
      Deployment.read]

theorem get_toDoc_templateLabel (d : Deployment) (k : String) :
    Assoc.get d.toDoc (templateLabel k) = (lookup d.templateLabels k).map JLeaf.str := by
  obtain ⟨meta, ⟨rep, selo, ⟨tmeta, tspec⟩, strat⟩, status, maps⟩ := d
  cases selo <;> cases rep <;>
    simp [Deployment.toDoc, Deployment.templateLabels, templateLabel, metaFields,
      Assoc.get_append, get_strField, get_mapField, leafUnder, lookup, Assoc.get,
      Deployment.read]

theorem lookup_promoted (d : Deployment) (s : String) (sel : LabelSelector) (a1 a2 : MapRef)
    (hsel : d.Spec.Selector = some sel) (hml : sel.MatchLabels = some a1)
    (htl : d.Spec.Template.ObjectMeta.Labels = some a2) :
    lookup (promoted d s a1 a2).matchLabels "name" = some s
      ∧ lookup (promoted d s a1 a2).matchLabels "primary" = some "true"
      ∧ lookup (promoted d s a1 a2).matchLabels "replica" = some "false"
      ∧ lookup (promoted d s a1 a2).templateLabels "name" = some s
      ∧ lookup (promoted d s a1 a2).templateLabels "primary" = some "true"
      ∧ lookup (promoted d s a1 a2).templateLabels "replica" = some "false" := by
  have hm : (promoted d s a1 a2).matchLabels = (promoted d s a1 a2).read (some a1) := by
    have : (promoted d s a1 a2).matchLabelsRef = some a1 := by
      show d.matchLabelsRef = some a1
      simp [Deployment.matchLabelsRef, hsel, hml]
    simp [Deployment.matchLabels, this]
  have ht : (promoted d s a1 a2).templateLabels = (promoted d s a1 a2).read (some a2) := by
    have : (promoted d s a1 a2).Spec.Template.ObjectMeta.Labels = some a2 := htl
    simp [Deployment.templateLabels, this]
  rw [hm, ht]
  simp only [lookup_read_promoted]
  simp [roleValue]

/-- What the stored definition of the patched deployment reads at the six role-label
leaves after the patch, when the stored role labels were those of the definition read. -/
theorem get_patched_roleLabel (d : Deployment) (s : String) (a1 a2 : MapRef) (stored : Doc)
    (hfresh : ∀ p, p ∈ roleLabelPaths → Assoc.get stored p = Assoc.get d.toDoc p)
    (p : Path) (hp : p ∈ roleLabelPaths) :
    Assoc.get (applyMergePatch stored (mergeDiff d.toDoc (promoted d s a1 a2).toDoc)) p
      = Assoc.get (promoted d s a1 a2).toDoc p := by
  rw [get_apply_mergeDiff]
  split
  · rename_i h
    rw [hfresh p hp, h]
  · rfl

theorem isPrimary_of_roleLabels (doc : Doc)
    (h1 : Assoc.get doc (selectorLabel "primary") = some (.str "true"))
    (h2 : Assoc.get doc (selectorLabel "replica") = some (.str "false"))
    (h3 : Assoc.get doc (templateLabel "primary") = some (.str "true"))
    (h4 : Assoc.get doc (templateLabel "replica") = some (.str "false")) :
    IsPrimary doc = true := by
  simp [IsPrimary, h1, h2, h3, h4]

/-- C4, as the code has it: `MergePatchDeployment` patches the promoted deployment only.
When both label maps are present and the stored role labels are those of the definition
read, the call succeeds against the store, the stored definition of the promoted deployment
then carries name = newname, primary=true, replica=false, and every other stored deployment
is unchanged.  Hence exactly the promoted deployment carries primary=true, replica=false
and all others replica=true whenever all others carried replica=true, and not
primary=true, replica=false, before.  When no other map field of the definition shares a
map with the two label maps, the promoted deployment's other leaves stay as stored. -/
theorem promotion_patches_the_promoted_only (s : Store) (d : Deployment)
    (newname namespace_ : String) (sel : LabelSelector) (a1 a2 : MapRef) (stored : Doc)
    (hsel : d.Spec.Selector = some sel) (hml : sel.MatchLabels = some a1)
    (htl : d.Spec.Template.ObjectMeta.Labels = some a2)
    (hstored : Assoc.get s (namespace_, d.Name) = some stored)
    (hfresh : ∀ p, p ∈ roleLabelPaths → Assoc.get stored p = Assoc.get d.toDoc p) :
    ∃ out, MergePatchDeployment Platform.Patch d newname namespace_ s = .returned out
      ∧ out.err = none
      ∧ (∃ doc, Assoc.get out.state (namespace_, d.Name) = some doc
          ∧ IsPrimary doc = true
          ∧ Assoc.get doc (selectorLabel "name") = some (.str newname)
          ∧ Assoc.get doc (templateLabel "name") = some (.str newname)
          ∧ (d.RoleMapsUnshared →
              ∀ p, p ∉ roleLabelPaths → Assoc.get doc p = Assoc.get stored p))
      ∧ (∀ key, key ≠ (namespace_, d.Name) → Assoc.get out.state key = Assoc.get s key)
      ∧ ((∀ key doc, key ≠ (namespace_, d.Name) → Assoc.get s key = some doc →
            IsReplica doc = true ∧ IsPrimary doc = false) →
          ∀ key doc, Assoc.get out.state key = some doc →
            (IsPrimary doc = true ↔ key = (namespace_, d.Name))
              ∧ (key ≠ (namespace_, d.Name) → IsReplica doc = true)) := by
  have hw : writeRoleLabels d newname = .ok (promoted d newname a1 a2) := by
    rw [writeRoleLabels_eq]; simp [hsel, hml, htl]
  obtain ⟨logs, h⟩ := mergePatchDeployment_ok Platform.Patch d newname namespace_ s _ hw
  have hname : (promoted d newname a1 a2).Name = d.Name := rfl
  rw [hname] at h
  have hpatch : Platform.Patch namespace_ d.Name .MergePatchType
      (.mergePatch (mergeDiff d.toDoc (promoted d newname a1 a2).toDoc)) s
      = ⟨(), none, Assoc.set s (namespace_, d.Name)
          (applyMergePatch stored (mergeDiff d.toDoc (promoted d newname a1 a2).toDoc))⟩ := by
    simp [Platform.Patch, hstored]
  rw [hpatch] at h
  obtain ⟨l1, l2, l3, l4, l5, l6⟩ := lookup_promoted d newname sel a1 a2 hsel hml htl
  have hrole := get_patched_roleLabel d newname a1 a2 stored hfresh
  have g1 := hrole (selectorLabel "name") (by simp [roleLabelPaths])
  have g2 := hrole (selectorLabel "primary") (by simp [roleLabelPaths])
  have g3 := hrole (selectorLabel "replica") (by simp [roleLabelPaths])
  have g4 := hrole (templateLabel "name") (by simp [roleLabelPaths])
  have g5 := hrole (templateLabel "primary") (by simp [roleLabelPaths])
  have g6 := hrole (templateLabel "replica") (by simp [roleLabelPaths])
  rw [get_toDoc_selectorLabel, l1] at g1
  rw [get_toDoc_selectorLabel, l2] at g2
  rw [get_toDoc_selectorLabel, l3] at g3
  rw [get_toDoc_templateLabel, l4] at g4
  rw [get_toDoc_templateLabel, l5] at g5
  rw [get_toDoc_templateLabel, l6] at g6
  have hprim := isPrimary_of_roleLabels _ g2 g3 g5 g6
  have hframe : d.RoleMapsUnshared → ∀ p, p ∉ roleLabelPaths →
      Assoc.get (applyMergePatch stored
        (mergeDiff d.toDoc (promoted d newname a1 a2).toDoc)) p = Assoc.get stored p := by
    intro hun p hp
    rw [get_apply_mergeDiff,
      if_pos (get_toDoc_promoted d newname sel a1 a2 hsel hml htl hun p hp).symm]
  have hother : ∀ key, key ≠ (namespace_, d.Name) →
      Assoc.get (Assoc.set s (namespace_, d.Name)
        (applyMergePatch stored (mergeDiff d.toDoc (promoted d newname a1 a2).toDoc))) key
        = Assoc.get s key := by
    intro key hkey
    rw [Assoc.get_set, if_neg (fun hh => hkey hh.symm)]
  refine ⟨_, h, rfl, ⟨_, by simp [Assoc.get_set], hprim, g1, g4, hframe⟩, hother, ?_⟩
  intro hrest key doc hdoc
  by_cases hkey : key = (namespace_, d.Name)
  · subst hkey
    simp only [Assoc.get_set, if_true, Option.some.injEq] at hdoc
    subst hdoc
    exact ⟨⟨fun _ => rfl, fun _ => hprim⟩, fun hne => absurd rfl hne⟩
  · have hdoc2 : Assoc.get s key = some doc := by
      rw [← hother key hkey]; exact hdoc
    obtain ⟨hr, hnp⟩ := hrest key doc hkey hdoc2
    refine ⟨⟨fun hp => ?_, fun hk => absurd hk hkey⟩, fun _ => hr⟩
    rw [hnp] at hp
    exact absurd hp (by decide)

theorem replicasStore_others (key : String × String) (doc : Doc)
    (hkey : key ≠ ("pgouser1", replicaDeployment.Name))
    (hget : Assoc.get replicasStore key = some doc) :
    IsReplica doc = true ∧ IsPrimary doc = false := by
  unfold replicasStore at hget
  simp only [Assoc.get] at hget
  by_cases h2 : (("pgouser1", "hippo-rep2") : String × String) = key
  · rw [if_pos h2] at hget
    injection hget with hget
    subst hget
    decide
  · rw [if_neg h2] at hget
    by_cases h1 : (("pgouser1", "hippo-rep1") : String × String) = key
    · exact absurd h1.symm hkey
    · rw [if_neg h1] at hget
      exact Option.noConfusion hget

/-- C4, as amended, on a store that holds two replicas: promoting `hippo-rep1` succeeds and
makes it the primary, `hippo-rep2` is stored as before, and it still carries replica=true
and not primary=true, replica=false. -/
theorem promotion_patches_the_promoted_only_witness :
    ∃ out, MergePatchDeployment Platform.Patch replicaDeployment "hippo" "pgouser1"
        replicasStore = .returned out
      ∧ out.err = none
      ∧ (∃ doc, Assoc.get out.state ("pgouser1", "hippo-rep1") = some doc
          ∧ IsPrimary doc = true)
      ∧ Assoc.get out.state ("pgouser1", "hippo-rep2") = some secondReplicaDeployment.toDoc
      ∧ ((IsPrimary secondReplicaDeployment.toDoc = true
            ↔ (("pgouser1", "hippo-rep2") : String × String) = ("pgouser1", "hippo-rep1"))
          ∧ IsReplica secondReplicaDeployment.toDoc = true) := by
  obtain ⟨out, h, he, ⟨doc, hd, hp, _⟩, hother, hone⟩ :=
    promotion_patches_the_promoted_only replicasStore replicaDeployment "hippo" "pgouser1"
      ⟨some 1⟩ 1 2 replicaDeployment.toDoc rfl rfl rfl (by decide) (fun _ _ => rfl)
  have hk : (("pgouser1", "hippo-rep2") : String × String)
      ≠ ("pgouser1", replicaDeployment.Name) := by decide
  have h2 : Assoc.get out.state ("pgouser1", "hippo-rep2")
      = some secondReplicaDeployment.toDoc := by
    rw [hother _ hk]; decide
  obtain ⟨hiff, hrep⟩ := hone replicasStore_others _ _ h2
  exact ⟨out, h, he, ⟨doc, hd, hp⟩, h2, hiff, hrep hk⟩

/-- C4, as stated, fails: in a cluster stored as a primary and one replica, after
`MergePatchDeployment` promotes the replica both deployments carry primary=true,
replica=false and the former primary does not carry replica=true; the one request the call
makes names the replica. -/
theorem promotion_leaves_former_primary :
    roles hippoStore
        = [(("pgouser1", "hippo"), true, false), (("pgouser1", "hippo-rep1"), false, true)]
      ∧ roles (MergePatchDeployment Platform.Patch replicaDeployment "hippo" "pgouser1"
          hippoStore).state
        = [(("pgouser1", "hippo"), true, false), (("pgouser1", "hippo-rep1"), true, false)]
      ∧ (MergePatchDeployment recordPatch replicaDeployment "hippo" "pgouser1" []).state.map
          (fun call => (call.namespace_, call.name)) = [("pgouser1", "hippo-rep1")] := by
  decide

/-! ### Scaling -/

theorem int32_of_range (m : Int) (h1 : -2 ^ 31 ≤ m) (h2 : m < 2 ^ 31) : int32 m = m := by
  unfold int32
  have h3 : (m + 2 ^ 31) % 2 ^ 32 = m + 2 ^ 31 := by
    apply Int.emod_eq_of_lt <;> omega
  omega

theorem read_eq (d : Deployment) (m : Option MapRef) :
    d.read m = m.map (fun a => (Assoc.get d.Maps a).getD []) := by
  cases m <;> rfl

theorem get_toDoc_scaled (d : Deployment) (m : Int) (p : Path)
    (hp : p ≠ ["spec", "replicas"]) :
    Assoc.get (scaled d m).toDoc p = Assoc.get d.toDoc p := by
  have hp2 : ¬ ["spec", "replicas"] = p := fun h => hp h.symm
  have hr : (scaled d m).read = d.read := by
    funext x; rw [read_eq, read_eq]; rfl
  obtain ⟨meta, ⟨rep, selo, ⟨tmeta, tspec⟩, strat⟩, status, maps⟩ := d
  unfold Deployment.toDoc
  rw [hr]
  cases rep <;> simp [scaled, Assoc.get_append, Assoc.get, hp2]

theorem get_toDoc_replicas (d : Deployment) :
    Assoc.get d.toDoc ["spec", "replicas"] = d.Spec.Replicas.map JLeaf.num := by
  obtain ⟨meta, ⟨rep, selo, ⟨tmeta, tspec⟩, strat⟩, status, maps⟩ := d
  cases rep <;> cases selo <;>
    simp [Deployment.toDoc, metaFields, Assoc.get_append, get_strField, get_mapField,
      leafUnder, Assoc.get]

theorem scaleDeployment_state {σ : Type} (Update : UpdateFn σ) (d : Deployment) (m : Int)
    (s : σ) :
    (ScaleDeployment Update d m s).state = (Update d.Namespace (scaled d m) s).state := by
  unfold ScaleDeployment UpdateDeployment
  have : (scaled d m).Namespace = d.Namespace := rfl
  simp only [this]
  generalize Update d.Namespace (scaled d m) s = r
  obtain ⟨obj, err, st⟩ := r
  cases err <;> rfl

/-- C7, as the code has it, for a target count in the 32-bit range: `ScaleDeployment` makes
one `Update` call, with the definition it was given in which only the replica count is
replaced, by the target count.  Against a store that holds this very definition the update
succeeds, the stored definition afterwards differs from the one before at the
replica-count leaf only, no other deployment changes, and when the replica count already
is the target the store is left as it was. -/
theorem scaleDeployment_sets_replica_count_only (σ : Type) (Update : UpdateFn σ)
    (d : Deployment) (m : Int) (s : σ) (store : Store)
    (hlo : -2 ^ 31 ≤ m) (hhi : m < 2 ^ 31) :
    (ScaleDeployment Update d m s).state = (Update d.Namespace (scaled d m) s).state
      ∧ (ScaleDeployment recordUpdate d m []).state = [(d.Namespace, scaled d m)]
      ∧ (scaled d m).Spec.Replicas = some m
      ∧ (scaled d m).ObjectMeta = d.ObjectMeta ∧ (scaled d m).Status = d.Status
      ∧ (scaled d m).Spec.Selector = d.Spec.Selector
      ∧ (scaled d m).Spec.Template = d.Spec.Template
      ∧ (scaled d m).Spec.Strategy = d.Spec.Strategy
      ∧ (scaled d m).Maps = d.Maps
      ∧ (Assoc.get store (d.Namespace, d.Name) = some d.toDoc →
          (ScaleDeployment Platform.Update d m store).ret = none
            ∧ (∃ doc, Assoc.get (ScaleDeployment Platform.Update d m store).state
                  (d.Namespace, d.Name) = some doc
                ∧ Assoc.get doc ["spec", "replicas"] = some (.num m)
                ∧ ∀ p, p ≠ ["spec", "replicas"] → Assoc.get doc p = Assoc.get d.toDoc p)
            ∧ (∀ key, key ≠ (d.Namespace, d.Name) →
                Assoc.get (ScaleDeployment Platform.Update d m store).state key
                  = Assoc.get store key)
            ∧ (d.Spec.Replicas = some m →
                (ScaleDeployment Platform.Update d m store).state = store)) := by
  have hm : int32 m = m := int32_of_range m hlo hhi
  have hrep : (scaled d m).Spec.Replicas = some m := by
    show some (int32 m) = some m
    rw [hm]
  refine ⟨scaleDeployment_state Update d m s, ?_, hrep, rfl, rfl, rfl, rfl, rfl, rfl, ?_⟩
  · rw [scaleDeployment_state]; rfl
  · intro hstored
    have hupd : Platform.Update d.Namespace (scaled d m) store
        = ⟨(), none, Assoc.set store (d.Namespace, d.Name) (scaled d m).toDoc⟩ := by
      have hn : (scaled d m).Name = d.Name := rfl
      simp [Platform.Update, hn, hstored]
    have hst : (ScaleDeployment Platform.Update d m store).state
        = Assoc.set store (d.Namespace, d.Name) (scaled d m).toDoc := by
      rw [scaleDeployment_state, hupd]
    have hret : (ScaleDeployment Platform.Update d m store).ret = none := by
      unfold ScaleDeployment UpdateDeployment
      have hns : (scaled d m).Namespace = d.Namespace := rfl
      simp only [hns, hupd]
    refine ⟨hret, ⟨(scaled d m).toDoc, ?_, ?_, ?_⟩, ?_, ?_⟩
    · rw [hst, Assoc.get_set, if_pos rfl]
    · rw [get_toDoc_replicas, hrep]; rfl
    · intro p hp; exact get_toDoc_scaled d m p hp
    · intro key hkey
      rw [hst, Assoc.get_set, if_neg (fun hh => hkey hh.symm)]
    · intro hr
      have hsame : scaled d m = d := by
        obtain ⟨meta, ⟨rep, selo, tmpl, strat⟩, status, maps⟩ := d
        simp only at hr
        simp [scaled, hr, hm]
      rw [hst, hsame]
      exact Assoc.set_of_get store _ _ hstored

/-- C7, as amended, at `replicaDeployment` scaled to three replicas on a store that holds
it and a second replica. -/
theorem scaleDeployment_sets_replica_count_only_witness :
    (ScaleDeployment recordUpdate replicaDeployment 3 []).state
        = [("pgouser1", scaled replicaDeployment 3)]
      ∧ (scaled replicaDeployment 3).Spec.Replicas = some 3
      ∧ (ScaleDeployment Platform.Update replicaDeployment 3 replicasStore).ret = none
      ∧ storedLeaf (ScaleDeployment Platform.Update replicaDeployment 3 replicasStore).state
          ("pgouser1", "hippo-rep1") ["spec", "replicas"] = some (.num 3)
      ∧ Assoc.get (ScaleDeployment Platform.Update replicaDeployment 3 replicasStore).state
          ("pgouser1", "hippo-rep2") = some secondReplicaDeployment.toDoc := by
  obtain ⟨_, h2, h3, _, _, _, _, _, _, hst⟩ :=
    scaleDeployment_sets_replica_count_only (List (String × Deployment)) recordUpdate
      replicaDeployment 3 [] replicasStore (by decide) (by decide)
  obtain ⟨hret, ⟨doc, hd, hr, _⟩, hother, _⟩ := hst (by decide)
  refine ⟨h2, h3, hret, ?_, ?_⟩
  · have hk : replicaDeployment.Namespace = "pgouser1" ∧ replicaDeployment.Name = "hippo-rep1" :=
      ⟨rfl, rfl⟩
    rw [hk.1, hk.2] at hd
    simp only [storedLeaf, hd, Option.some_bind]
    exact hr
  · rw [hother _ (by decide)]
    decide

/-- C7, as stated, fails: when the store holds a newer definition than the one passed in,
here one whose strategy was changed, `ScaleDeployment` to three replicas succeeds and the
stored definition afterwards differs from the one before in the strategy too, which is
back at the passed definition's. -/
theorem scaleDeployment_overwrites_newer_fields :
    storedLeaf newerStore ("pgouser1", "hippo-rep1") ["spec", "strategy"]
        = some (.raw "RollingUpdate")
      ∧ (ScaleDeployment Platform.Update replicaDeployment 3 newerStore).ret = none
      ∧ storedLeaf (ScaleDeployment Platform.Update replicaDeployment 3 newerStore).state
          ("pgouser1", "hippo-rep1") ["spec", "strategy"] = some (.raw "Recreate")
      ∧ storedLeaf (ScaleDeployment Platform.Update replicaDeployment 3 newerStore).state
          ("pgouser1", "hippo-rep1") ["spec", "replicas"] = some (.num 3) := by
  decide

/-- Outside the 32-bit range the conversion `int32(replicas)` of line 247 keeps the low 32
bits: asked for 2147483648 replicas, `ScaleDeployment` submits -2147483648. -/
theorem scaleDeployment_wraps_at_32_bits :
    (ScaleDeployment recordUpdate replicaDeployment 2147483648 []).state.map
        (fun call => call.2.Spec.Replicas) = [some (-2147483648)]
      ∧ (scaled replicaDeployment 2147483648).Spec.Replicas ≠ some 2147483648 := by
  decide

end PostgresOperator
